import Mathlib

/-!
A shallow embedding in Lean 4 of the core business logic of the
DjangoSaasStarter backend (a Django/DRF SaaS starter), together with
theorems settling the specification's claims about it.

Conventions of the embedding:
* Python strings are Lean `String`s; `str.strip()`, `str.lower()` and
  `str.upper()` are embedded as `pyStrip`, `pyLower`, `pyUpper` over the
  character list, with Python's whitespace set.
* JSON-like Python values (webhook payloads, JWT claim values, metadata)
  are the inductive `JVal`; Python truthiness is `JVal.truthy` and
  `str(...)` is `pyStr`.
* Django ORM tables are Lean lists of records; `objects.create`,
  `get_or_create` and `update_or_create` are explicit list operations.
  Raising an exception inside `transaction.atomic()` rolls the transaction
  back, so a function that raises is embedded as returning `Except.error`
  without a new state.
* `datetime` values are `PyDateTime` records compared lexicographically by
  (year, month, day, hour, minute, second, microsecond), matching Python's
  comparison of datetimes in a common timezone.
-/

set_option maxHeartbeats 1000000

/-! ## Python string primitives -/

/-- Python's whitespace set used by `str.strip()`, by character code:
space, tab, newline, carriage return, vertical tab, form feed. -/
def pyIsSpace (c : Char) : Bool :=
  c.toNat = 32 || c.toNat = 9 || c.toNat = 10 || c.toNat = 13 || c.toNat = 11 || c.toNat = 12

/-- `str.strip()` on the character list: drop whitespace from both ends. -/
def pyStripList (l : List Char) : List Char :=
  List.rdropWhile pyIsSpace (l.dropWhile pyIsSpace)

/-- Embedding of Python `str.strip()`. -/
def pyStrip (s : String) : String :=
  ⟨pyStripList s.data⟩

/-- Embedding of Python `str.lower()` (ASCII letters, as `Char.toLower`). -/
def pyLower (s : String) : String :=
  ⟨s.data.map Char.toLower⟩

/-- Embedding of Python `str.upper()` (ASCII letters, as `Char.toUpper`). -/
def pyUpper (s : String) : String :=
  ⟨s.data.map Char.toUpper⟩

theorem char_toNat_ofNat (n : Nat) (h : n < 55296) : (Char.ofNat n).toNat = n := by
  rw [Char.ofNat, dif_pos (Or.inl h)]
  rfl

theorem toLower_toLower (c : Char) : c.toLower.toLower = c.toLower := by
  unfold Char.toLower
  by_cases h : c.toNat ≥ 65 ∧ c.toNat ≤ 90
  · rw [if_pos h]
    have hv : (Char.ofNat (c.toNat + 32)).toNat = c.toNat + 32 :=
      char_toNat_ofNat _ (by omega)
    rw [hv, if_neg (by omega)]
  · rw [if_neg h, if_neg h]

theorem toUpper_toUpper (c : Char) : c.toUpper.toUpper = c.toUpper := by
  unfold Char.toUpper
  by_cases h : c.toNat ≥ 97 ∧ c.toNat ≤ 122
  · rw [if_pos h]
    have hv : (Char.ofNat (c.toNat - 32)).toNat = c.toNat - 32 :=
      char_toNat_ofNat _ (by omega)
    rw [hv, if_neg (by omega)]
  · rw [if_neg h, if_neg h]

theorem pyIsSpace_toLower (c : Char) : pyIsSpace c.toLower = pyIsSpace c := by
  unfold Char.toLower
  by_cases h : c.toNat ≥ 65 ∧ c.toNat ≤ 90
  · rw [if_pos h]
    have hv : (Char.ofNat (c.toNat + 32)).toNat = c.toNat + 32 :=
      char_toNat_ofNat _ (by omega)
    simp only [pyIsSpace, hv]
    have h1 : c.toNat ≠ 32 ∧ c.toNat ≠ 9 ∧ c.toNat ≠ 10 ∧ c.toNat ≠ 13 ∧ c.toNat ≠ 11 ∧
        c.toNat ≠ 12 := by omega
    have h2 : c.toNat + 32 ≠ 32 ∧ c.toNat + 32 ≠ 9 ∧ c.toNat + 32 ≠ 10 ∧ c.toNat + 32 ≠ 13 ∧
        c.toNat + 32 ≠ 11 ∧ c.toNat + 32 ≠ 12 := by omega
    simp [h1.1, h1.2.1, h1.2.2.1, h1.2.2.2.1, h1.2.2.2.2.1, h1.2.2.2.2.2,
      h2.1, h2.2.1, h2.2.2.1, h2.2.2.2.1, h2.2.2.2.2.1, h2.2.2.2.2.2]
  · rw [if_neg h]

theorem pyIsSpace_toUpper (c : Char) : pyIsSpace c.toUpper = pyIsSpace c := by
  unfold Char.toUpper
  by_cases h : c.toNat ≥ 97 ∧ c.toNat ≤ 122
  · rw [if_pos h]
    have hv : (Char.ofNat (c.toNat - 32)).toNat = c.toNat - 32 :=
      char_toNat_ofNat _ (by omega)
    simp only [pyIsSpace, hv]
    have h1 : c.toNat ≠ 32 ∧ c.toNat ≠ 9 ∧ c.toNat ≠ 10 ∧ c.toNat ≠ 13 ∧ c.toNat ≠ 11 ∧
        c.toNat ≠ 12 := by omega
    have h2 : c.toNat - 32 ≠ 32 ∧ c.toNat - 32 ≠ 9 ∧ c.toNat - 32 ≠ 10 ∧ c.toNat - 32 ≠ 13 ∧
        c.toNat - 32 ≠ 11 ∧ c.toNat - 32 ≠ 12 := by omega
    simp [h1.1, h1.2.1, h1.2.2.1, h1.2.2.2.1, h1.2.2.2.2.1, h1.2.2.2.2.2,
      h2.1, h2.2.1, h2.2.2.1, h2.2.2.2.1, h2.2.2.2.2.1, h2.2.2.2.2.2]
  · rw [if_neg h]

theorem pyStripList_idem (l : List Char) : pyStripList (pyStripList l) = pyStripList l := by
  unfold pyStripList
  have h1 : (List.rdropWhile pyIsSpace (l.dropWhile pyIsSpace)).dropWhile pyIsSpace =
      List.rdropWhile pyIsSpace (l.dropWhile pyIsSpace) := by
    rw [List.dropWhile_eq_self_iff]
    intro hl
    obtain ⟨t, ht⟩ := List.rdropWhile_prefix pyIsSpace (l.dropWhile pyIsSpace)
    have hne : List.rdropWhile pyIsSpace (l.dropWhile pyIsSpace) ≠ [] :=
      List.ne_nil_of_length_pos hl
    have hdne : l.dropWhile pyIsSpace ≠ [] := by
      intro h
      rw [h] at hne
      simp [List.rdropWhile] at hne
    rw [List.get_mk_zero]
    have hhead : (List.rdropWhile pyIsSpace (l.dropWhile pyIsSpace)).head hne =
        (l.dropWhile pyIsSpace).head hdne := by
      have happ :=
        @List.head?_append _ t (List.rdropWhile pyIsSpace (l.dropWhile pyIsSpace))
      rw [ht, List.head?_eq_head hne, List.head?_eq_head hdne] at happ
      exact (Option.some.inj happ).symm
    rw [hhead]
    simp [List.head_dropWhile_not pyIsSpace l hdne]
  rw [h1, List.rdropWhile_idempotent]

theorem pyStrip_pyStrip (s : String) : pyStrip (pyStrip s) = pyStrip s := by
  unfold pyStrip
  exact congrArg String.mk (pyStripList_idem s.data)

theorem pyLower_pyLower (s : String) : pyLower (pyLower s) = pyLower s := by
  unfold pyLower
  refine congrArg String.mk ?_
  rw [List.map_map]
  exact List.map_congr_left fun c _ => toLower_toLower c

theorem pyUpper_pyUpper (s : String) : pyUpper (pyUpper s) = pyUpper s := by
  unfold pyUpper
  refine congrArg String.mk ?_
  rw [List.map_map]
  exact List.map_congr_left fun c _ => toUpper_toUpper c

theorem dropWhile_pyIsSpace_map_toLower (l : List Char) :
    (l.map Char.toLower).dropWhile pyIsSpace = (l.dropWhile pyIsSpace).map Char.toLower := by
  rw [List.dropWhile_map]
  have h : pyIsSpace ∘ Char.toLower = pyIsSpace := funext pyIsSpace_toLower
  rw [h]

theorem rdropWhile_pyIsSpace_map_toLower (l : List Char) :
    List.rdropWhile pyIsSpace (l.map Char.toLower) =
      (List.rdropWhile pyIsSpace l).map Char.toLower := by
  unfold List.rdropWhile
  rw [← List.map_reverse, dropWhile_pyIsSpace_map_toLower, List.map_reverse]

theorem pyStrip_pyLower (s : String) : pyStrip (pyLower s) = pyLower (pyStrip s) := by
  unfold pyStrip pyLower pyStripList
  refine congrArg String.mk ?_
  show List.rdropWhile pyIsSpace ((s.data.map Char.toLower).dropWhile pyIsSpace) = _
  rw [dropWhile_pyIsSpace_map_toLower, rdropWhile_pyIsSpace_map_toLower]

/-! ## JSON-like Python values -/

/-- A JSON-like Python value: the payloads, claims and metadata handled by
the backend. -/
inductive JVal where
  | jnull
  | jbool (b : Bool)
  | jnum (n : Int)
  | jstr (s : String)
  | jlist (xs : List JVal)
  | jdict (kvs : List (String × JVal))
  deriving Repr, Inhabited

/-- Python truthiness for `JVal` (`bool(value)`). -/
def JVal.truthy : JVal → Bool
  | .jnull => false
  | .jbool b => b
  | .jnum n => n ≠ 0
  | .jstr s => s ≠ ""
  | .jlist xs => !xs.isEmpty
  | .jdict kvs => !kvs.isEmpty

/-- Does the value play the role of Python `None`? -/
def JVal.isNull : JVal → Bool
  | .jnull => true
  | _ => false

mutual
/-- Python `str(...)` on a `JVal`. -/
def pyStr : JVal → String
  | .jnull => "None"
  | .jbool b => if b then "True" else "False"
  | .jnum n => toString n
  | .jstr s => s
  | .jlist xs => "[" ++ String.intercalate ", " (pyReprList xs) ++ "]"
  | .jdict kvs => "\x7b" ++ String.intercalate ", " (pyReprDict kvs) ++ "\x7d"

/-- Python `repr(...)` on a `JVal` (strings gain single quotes). -/
def pyRepr : JVal → String
  | .jstr s => String.singleton (Char.ofNat 39) ++ s ++ String.singleton (Char.ofNat 39)
  | v => pyStr v

/-- `repr` of every element of a Python list. -/
def pyReprList : List JVal → List String
  | [] => []
  | v :: rest => pyRepr v :: pyReprList rest

/-- `repr` of every `key: value` entry of a Python dict. -/
def pyReprDict : List (String × JVal) → List String
  | [] => []
  | (k, v) :: rest =>
      (String.singleton (Char.ofNat 39) ++ k ++ String.singleton (Char.ofNat 39) ++ ": " ++
        pyRepr v) :: pyReprDict rest
end

mutual
/-- Structural Boolean equality on `JVal` (Python `==` / `!=`). -/
def jvalBeq : JVal → JVal → Bool
  | .jnull, .jnull => true
  | .jbool a, .jbool b => a == b
  | .jnum a, .jnum b => a == b
  | .jstr a, .jstr b => a == b
  | .jlist xs, .jlist ys => jlistBeq xs ys
  | .jdict xs, .jdict ys => jdictBeq xs ys
  | _, _ => false

/-- Pointwise `jvalBeq` on lists. -/
def jlistBeq : List JVal → List JVal → Bool
  | [], [] => true
  | x :: xs, y :: ys => jvalBeq x y && jlistBeq xs ys
  | _, _ => false

/-- Pointwise `jvalBeq` on dict entry lists. -/
def jdictBeq : List (String × JVal) → List (String × JVal) → Bool
  | [], [] => true
  | (k1, v1) :: xs, (k2, v2) :: ys => k1 == k2 && jvalBeq v1 v2 && jdictBeq xs ys
  | _, _ => false
end

mutual
theorem jvalBeq_refl : (v : JVal) → jvalBeq v v = true
  | .jnull => rfl
  | .jbool b => by simp [jvalBeq]
  | .jnum n => by simp [jvalBeq]
  | .jstr s => by simp [jvalBeq]
  | .jlist xs => by simp [jvalBeq, jlistBeq_refl xs]
  | .jdict xs => by simp [jvalBeq, jdictBeq_refl xs]

theorem jlistBeq_refl : (xs : List JVal) → jlistBeq xs xs = true
  | [] => rfl
  | x :: xs => by simp [jlistBeq, jvalBeq_refl x, jlistBeq_refl xs]

theorem jdictBeq_refl : (xs : List (String × JVal)) → jdictBeq xs xs = true
  | [] => rfl
  | (k, v) :: xs => by simp [jdictBeq, jvalBeq_refl v, jdictBeq_refl xs]
end

/-- A Python dict with string keys, in insertion order. -/
def PyDict := List (String × JVal)

/-- `dict.get(key)`: Python returns `None` both for a missing key and for a
stored `None`, so the embedding returns `JVal.jnull` in both cases. -/
def dictGet (d : PyDict) (k : String) : JVal :=
  match List.find? (fun kv => kv.1 = k) d with
  | some kv => kv.2
  | none => .jnull

/-! ## Django settings

The deployment's `settings` object, restricted to the attributes the
embedded code reads; default values are the `getattr` defaults in the
source. -/

structure PySettings where
  clerkBillingClaim : Option String := none
  aiUsageEnforcementEnabled : Bool := true
  aiUsageLimitFreeTokens : Int := 100000
  aiUsageLimitFreeImages : Int := 120
  aiUsageLimitFreeVideos : Int := 2
  aiUsageLimitProTokens : Int := 1500000
  aiUsageLimitProImages : Int := 1000
  aiUsageLimitProVideos : Int := 40

/-! ## billing.py -/

def DEFAULT_BILLING_CLAIM : String := "entitlements"

/-- `_normalize_feature` from `api/billing.py`:
`str(value or "").strip().lower()`. -/
def normalizeFeature (v : JVal) : String :=
  pyLower (pyStrip (pyStr (if v.truthy then v else .jstr "")))

/-- The claim value selected by `extract_billing_features`: the configured
claim (or the explicit `claim_name` argument), falling back to the default
`entitlements` claim when the selected one is absent. -/
def billingClaimValue (stgs : PySettings) (claims : PyDict) (claim_name : Option String) : JVal :=
  let selected :=
    match claim_name with
    | some c => if c = "" then stgs.clerkBillingClaim.getD DEFAULT_BILLING_CLAIM else c
    | none => stgs.clerkBillingClaim.getD DEFAULT_BILLING_CLAIM
  let value := dictGet claims selected
  if value.isNull ∧ selected ≠ DEFAULT_BILLING_CLAIM then
    dictGet claims DEFAULT_BILLING_CLAIM
  else
    value

/-- The pre-deduplication feature list of `extract_billing_features`,
by the type of the claim value. -/
def rawBillingFeatures : JVal → List String
  | .jlist xs => xs.map normalizeFeature
  | .jdict kvs => (kvs.filter fun kv => kv.2.truthy).map fun kv => normalizeFeature (.jstr kv.1)
  | .jstr s => (s.splitOn ",").map fun seg => normalizeFeature (.jstr seg)
  | _ => []

/-- The `deduped`/`seen` loop of `extract_billing_features`: keep the first
occurrence of each non-empty feature. -/
def dedupKeepFirst (seen : List String) : List String → List String
  | [] => []
  | f :: rest =>
      if f = "" ∨ seen.contains f then dedupKeepFirst seen rest
      else f :: dedupKeepFirst (f :: seen) rest

/-- `extract_billing_features` from `api/billing.py`. -/
def extract_billing_features (stgs : PySettings) (claims : PyDict)
    (claim_name : Option String) : List String :=
  dedupKeepFirst [] (rawBillingFeatures (billingClaimValue stgs claims claim_name))

/-- `infer_plan_tier` from `api/billing.py`. -/
def infer_plan_tier (features : List String) : String :=
  let normalized := features.map pyLower
  if normalized.contains "enterprise" then "enterprise"
  else if normalized.contains "pro" || normalized.contains "premium" ||
      normalized.contains "growth" then "pro"
  else "free"

theorem normalizeFeature_strip (v : JVal) :
    pyStrip (normalizeFeature v) = normalizeFeature v := by
  unfold normalizeFeature
  rw [pyStrip_pyLower, pyStrip_pyStrip]

theorem normalizeFeature_lower (v : JVal) :
    pyLower (normalizeFeature v) = normalizeFeature v :=
  pyLower_pyLower _

theorem rawBillingFeatures_mem (v : JVal) (f : String) (hf : f ∈ rawBillingFeatures v) :
    ∃ w, f = normalizeFeature w := by
  cases v with
  | jlist xs =>
      simp only [rawBillingFeatures, List.mem_map] at hf
      obtain ⟨w, _, hw⟩ := hf
      exact ⟨w, hw.symm⟩
  | jdict kvs =>
      simp only [rawBillingFeatures, List.mem_map] at hf
      obtain ⟨kv, _, hkv⟩ := hf
      exact ⟨.jstr kv.1, hkv.symm⟩
  | jstr s =>
      simp only [rawBillingFeatures, List.mem_map] at hf
      obtain ⟨seg, _, hseg⟩ := hf
      exact ⟨.jstr seg, hseg.symm⟩
  | jnull => simp [rawBillingFeatures] at hf
  | jbool b => simp [rawBillingFeatures] at hf
  | jnum n => simp [rawBillingFeatures] at hf

theorem dedupKeepFirst_sublist (raw : List String) :
    ∀ seen, List.Sublist (dedupKeepFirst seen raw) raw := by
  induction raw with
  | nil => intro seen; simp [dedupKeepFirst]
  | cons g rest ih =>
      intro seen
      unfold dedupKeepFirst
      by_cases h : g = "" ∨ seen.contains g
      · rw [if_pos h]
        exact (ih seen).trans (List.sublist_cons_self g rest)
      · rw [if_neg h]
        exact List.Sublist.cons₂ g (ih (g :: seen))

theorem dedupKeepFirst_mem_of (raw : List String) :
    ∀ seen f, f ∈ dedupKeepFirst seen raw → f ∈ raw ∧ f ≠ "" := by
  induction raw with
  | nil => intro seen f hf; simp [dedupKeepFirst] at hf
  | cons g rest ih =>
      intro seen f hf
      unfold dedupKeepFirst at hf
      by_cases h : g = "" ∨ seen.contains g
      · rw [if_pos h] at hf
        obtain ⟨h1, h2⟩ := ih seen f hf
        exact ⟨List.mem_cons_of_mem g h1, h2⟩
      · rw [if_neg h] at hf
        rcases List.mem_cons.mp hf with hfg | hf'
        · subst hfg
          exact ⟨List.mem_cons_self f rest, fun he => h (Or.inl he)⟩
        · obtain ⟨h1, h2⟩ := ih (g :: seen) f hf'
          exact ⟨List.mem_cons_of_mem g h1, h2⟩

theorem dedupKeepFirst_mem_to (raw : List String) :
    ∀ seen f, f ∈ raw → f ≠ "" → seen.contains f = false →
      f ∈ dedupKeepFirst seen raw := by
  induction raw with
  | nil => intro seen f hf; simp at hf
  | cons g rest ih =>
      intro seen f hf hfne hfseen
      unfold dedupKeepFirst
      rcases List.mem_cons.mp hf with hfg | hf'
      · subst hfg
        have hcond : ¬(f = "" ∨ seen.contains f = true) := by
          rintro (h1 | h2)
          · exact hfne h1
          · rw [hfseen] at h2
            exact Bool.false_ne_true h2
        rw [if_neg hcond]
        exact List.mem_cons_self f _
      · by_cases h : g = "" ∨ seen.contains g
        · rw [if_pos h]
          exact ih seen f hf' hfne hfseen
        · rw [if_neg h]
          by_cases hfg : f = g
          · subst hfg
            exact List.mem_cons_self f _
          · refine List.mem_cons_of_mem g (ih (g :: seen) f hf' hfne ?_)
            rw [List.contains_cons, hfseen, Bool.or_false]
            exact beq_eq_false_iff_ne.mpr hfg

theorem dedupKeepFirst_nodup (raw : List String) :
    ∀ seen, (dedupKeepFirst seen raw).Nodup ∧
      ∀ f ∈ dedupKeepFirst seen raw, seen.contains f = false := by
  induction raw with
  | nil => intro seen; simp [dedupKeepFirst]
  | cons g rest ih =>
      intro seen
      unfold dedupKeepFirst
      by_cases h : g = "" ∨ seen.contains g
      · rw [if_pos h]
        exact ih seen
      · rw [if_neg h]
        obtain ⟨ihnd, ihseen⟩ := ih (g :: seen)
        constructor
        · rw [List.nodup_cons]
          refine ⟨fun hg => ?_, ihnd⟩
          have := ihseen g hg
          simp [List.contains_cons] at this
        · intro f hf
          rcases List.mem_cons.mp hf with hfg | hf'
          · subst hfg
            have : ¬ seen.contains f := fun hc => h (Or.inr hc)
            simpa using this
          · have := ihseen f hf'
            simp [List.contains_cons] at this
            simpa using this.2

/-- C7: for every claims dict, `extract_billing_features` returns a
duplicate-free list of non-empty, lowercased, whitespace-trimmed feature
strings, kept in first-occurrence order (the result is a duplicate-free
sublist of the raw normalized features, containing exactly their non-empty
members); a list value is normalized element-wise, a dict value keeps only
keys with truthy values, a string value is split on commas and each
segment normalized, and any other value yields the empty list. -/
theorem c7_extract_billing_features (stgs : PySettings) (claims : PyDict)
    (claim_name : Option String) :
    (extract_billing_features stgs claims claim_name).Nodup
    ∧ (∀ f ∈ extract_billing_features stgs claims claim_name,
        f ≠ "" ∧ pyStrip f = f ∧ pyLower f = f)
    ∧ List.Sublist (extract_billing_features stgs claims claim_name)
        (rawBillingFeatures (billingClaimValue stgs claims claim_name))
    ∧ (∀ f, f ∈ extract_billing_features stgs claims claim_name ↔
        f ∈ rawBillingFeatures (billingClaimValue stgs claims claim_name) ∧ f ≠ "")
    ∧ (∀ v, billingClaimValue stgs claims claim_name = v →
        (v.isNull ∨ (∃ b, v = .jbool b) ∨ (∃ n, v = .jnum n)) →
        extract_billing_features stgs claims claim_name = []) := by
  refine ⟨(dedupKeepFirst_nodup _ []).1, ?_, dedupKeepFirst_sublist _ [], ?_, ?_⟩
  · intro f hf
    obtain ⟨hmem, hne⟩ := dedupKeepFirst_mem_of _ [] f hf
    obtain ⟨w, hw⟩ := rawBillingFeatures_mem _ f hmem
    exact ⟨hne, hw ▸ normalizeFeature_strip w, hw ▸ normalizeFeature_lower w⟩
  · intro f
    constructor
    · exact dedupKeepFirst_mem_of _ [] f
    · rintro ⟨hmem, hne⟩
      exact dedupKeepFirst_mem_to _ [] f hmem hne rfl
  · rintro v hv (hnull | ⟨b, hb⟩ | ⟨n, hn⟩) <;>
      unfold extract_billing_features <;> rw [hv]
    · cases v <;> simp_all [JVal.isNull, rawBillingFeatures, dedupKeepFirst]
    · subst hb; simp [rawBillingFeatures, dedupKeepFirst]
    · subst hn; simp [rawBillingFeatures, dedupKeepFirst]

/-! ## Python datetimes

`datetime` values compared lexicographically field by field, which matches
Python's comparison of two datetimes carrying the same timezone (the code
converts the anchor into `now`'s timezone before comparing). -/

structure PyDateTime where
  year : Nat
  month : Nat
  day : Nat
  hour : Nat
  minute : Nat
  second : Nat
  microsecond : Nat
  deriving Repr, DecidableEq, Inhabited

/-- Python `<` on datetimes (lexicographic on the fields). -/
def dtLt (a b : PyDateTime) : Bool :=
  if a.year ≠ b.year then decide (a.year < b.year)
  else if a.month ≠ b.month then decide (a.month < b.month)
  else if a.day ≠ b.day then decide (a.day < b.day)
  else if a.hour ≠ b.hour then decide (a.hour < b.hour)
  else if a.minute ≠ b.minute then decide (a.minute < b.minute)
  else if a.second ≠ b.second then decide (a.second < b.second)
  else decide (a.microsecond < b.microsecond)

/-- Python `<=` on datetimes. -/
def dtLe (a b : PyDateTime) : Bool :=
  !(dtLt b a)

theorem dtLt_of_ym (a b : PyDateTime)
    (h : a.year < b.year ∨ (a.year = b.year ∧ a.month < b.month)) : dtLt a b = true := by
  unfold dtLt
  rcases h with h | ⟨h1, h2⟩
  · rw [if_pos (by omega)]
    simpa using h
  · rw [if_neg (by omega), if_pos (by omega)]
    simpa using h2

theorem dtLt_false_of_ym (a b : PyDateTime)
    (h : b.year < a.year ∨ (a.year = b.year ∧ b.month < a.month)) : dtLt a b = false := by
  unfold dtLt
  rcases h with h | ⟨h1, h2⟩
  · rw [if_pos (by omega)]
    simpa using by omega
  · rw [if_neg (by omega), if_pos (by omega)]
    simpa using by omega

/-! ## api/tools/ai/usage.py: usage periods -/

/-- The half-open usage accounting window returned by
`resolve_usage_period`. -/
structure UsagePeriod where
  start : PyDateTime
  end_ : PyDateTime
  source : String
  subscription_id : Option Nat
  deriving Repr, DecidableEq, Inhabited

/-- `calendar.monthrange(year, month)[1]`: the number of days of the
month, with Gregorian leap years. -/
def isLeapYear (y : Nat) : Bool :=
  y % 4 = 0 && (y % 100 ≠ 0 || y % 400 = 0)

/-- Days in a month (`calendar.monthrange(year, month)[1]`). -/
def monthrangeDays (y m : Nat) : Nat :=
  if m = 2 then (if isLeapYear y then 29 else 28)
  else if m = 4 ∨ m = 6 ∨ m = 9 ∨ m = 11 then 30
  else 31

/-- `_month_rollover` from `usage.py`. -/
def _month_rollover (year month : Nat) : Nat × Nat :=
  if month = 12 then (year + 1, 1) else (year, month + 1)

/-- `_prev_month` from `usage.py`. -/
def _prev_month (year month : Nat) : Nat × Nat :=
  if month = 1 then (year - 1, 12) else (year, month - 1)

/-- `_anchored_dt` from `usage.py`: the anchor's time-of-day on the
anchor's day-of-month, clamped to the last day of the given month. -/
def _anchored_dt (year month : Nat) (anchor : PyDateTime) : PyDateTime :=
  let last_day := monthrangeDays year month
  { year := year, month := month, day := min anchor.day last_day,
    hour := anchor.hour, minute := anchor.minute, second := anchor.second,
    microsecond := anchor.microsecond }

/-- `_resolve_anchored_monthly_period` from `usage.py`; `created_at` is the
customer account's creation timestamp (the anchor). -/
def _resolve_anchored_monthly_period (created_at now : PyDateTime) : UsagePeriod :=
  let anchor := created_at
  let this_month_anchor := _anchored_dt now.year now.month anchor
  let period_start :=
    if dtLt now this_month_anchor then
      _anchored_dt (_prev_month now.year now.month).1 (_prev_month now.year now.month).2 anchor
    else this_month_anchor
  let period_end := _anchored_dt (_month_rollover period_start.year period_start.month).1
    (_month_rollover period_start.year period_start.month).2 anchor
  { start := period_start, end_ := period_end, source := "anchored_monthly_cycle",
    subscription_id := none }

/-- Subscription statuses (`Subscription.Status`). -/
inductive SubStatus where
  | trialing
  | active
  | past_due
  | canceled
  | incomplete
  | paused
  deriving Repr, DecidableEq, Inhabited

/-- The columns of a `Subscription` row read by `resolve_usage_period`. -/
structure SubscriptionRow where
  id : Nat
  status : SubStatus
  current_period_start : Option PyDateTime
  current_period_end : Option PyDateTime
  deriving Repr, DecidableEq, Inhabited

/-- The status filter of `resolve_usage_period`'s subscription query. -/
def subStatusQualifies (s : SubStatus) : Bool :=
  s = .active || s = .trialing || s = .past_due

/-- The subscription loop of `resolve_usage_period`: the first subscription
whose period bounds are both set, well-ordered, and contain `now`. -/
def findCyclePeriod : List SubscriptionRow → PyDateTime → Option UsagePeriod
  | [], _ => none
  | sub :: rest, now =>
      match sub.current_period_start, sub.current_period_end with
      | some s, some e =>
          if dtLe e s then findCyclePeriod rest now
          else if dtLe s now && dtLt now e then
            some { start := s, end_ := e, source := "subscription_cycle",
                   subscription_id := some sub.id }
          else findCyclePeriod rest now
      | _, _ => findCyclePeriod rest now

/-- `resolve_usage_period` from `usage.py`. The list `subs` stands for the
account's subscription rows in the order produced by the query's
`order_by("-current_period_end", "-updated_at")`. -/
def resolve_usage_period (subs : List SubscriptionRow) (created_at now : PyDateTime) :
    UsagePeriod :=
  match findCyclePeriod (subs.filter fun s => subStatusQualifies s.status) now with
  | some p => p
  | none => _resolve_anchored_monthly_period created_at now

@[simp] theorem anchored_dt_year (y m : Nat) (a : PyDateTime) : (_anchored_dt y m a).year = y :=
  rfl

@[simp] theorem anchored_dt_month (y m : Nat) (a : PyDateTime) :
    (_anchored_dt y m a).month = m :=
  rfl

theorem findCyclePeriod_some (now : PyDateTime) (p : UsagePeriod) :
    ∀ l : List SubscriptionRow, findCyclePeriod l now = some p →
      dtLe p.start now = true ∧ dtLt now p.end_ = true ∧ dtLt p.start p.end_ = true ∧
      p.source = "subscription_cycle" ∧
      ∃ sub ∈ l, sub.current_period_start = some p.start ∧
        sub.current_period_end = some p.end_ ∧ p.subscription_id = some sub.id := by
  intro l
  induction l with
  | nil => intro h; simp [findCyclePeriod] at h
  | cons sub rest ih =>
      intro h
      rw [findCyclePeriod] at h
      split at h
      case h_1 s e hcs hce =>
        split at h
        case isTrue hes =>
          obtain ⟨h1, h2, h3, h4, w, hw, h5⟩ := ih h
          exact ⟨h1, h2, h3, h4, w, List.mem_cons_of_mem sub hw, h5⟩
        case isFalse hes =>
          split at h
          case isTrue hin =>
            obtain ⟨hin1, hin2⟩ := Bool.and_eq_true_iff.mp hin
            have hp := Option.some.inj h
            subst hp
            refine ⟨hin1, hin2, ?_, rfl, sub, List.mem_cons_self sub rest, hcs, hce, rfl⟩
            simpa [dtLe] using hes
          case isFalse hin =>
            obtain ⟨h1, h2, h3, h4, w, hw, h5⟩ := ih h
            exact ⟨h1, h2, h3, h4, w, List.mem_cons_of_mem sub hw, h5⟩
      case h_2 =>
        obtain ⟨h1, h2, h3, h4, w, hw, h5⟩ := ih h
        exact ⟨h1, h2, h3, h4, w, List.mem_cons_of_mem sub hw, h5⟩

theorem findCyclePeriod_none (now : PyDateTime) :
    ∀ l : List SubscriptionRow,
      (∀ sub ∈ l, ¬∃ s e, sub.current_period_start = some s ∧
        sub.current_period_end = some e ∧ dtLt s e = true ∧
        dtLe s now = true ∧ dtLt now e = true) →
      findCyclePeriod l now = none := by
  intro l
  induction l with
  | nil => intro _; rfl
  | cons sub rest ih =>
      intro hno
      have hrest : findCyclePeriod rest now = none :=
        ih fun w hw => hno w (List.mem_cons_of_mem sub hw)
      rw [findCyclePeriod]
      split
      case h_1 s e hcs hce =>
        split
        case isTrue hes => exact hrest
        case isFalse hes =>
          have hse : dtLt s e = true := by
            have := (Bool.not_eq_true _).mp hes
            simpa [dtLe] using this
          have hguard : ¬ (dtLe s now && dtLt now e) = true := by
            intro hg
            obtain ⟨hg1, hg2⟩ := Bool.and_eq_true_iff.mp hg
            exact hno sub (List.mem_cons_self sub rest) ⟨s, e, hcs, hce, hse, hg1, hg2⟩
          rw [if_neg hguard]
          exact hrest
      case h_2 => exact hrest

theorem anchored_monthly_contains (created_at now : PyDateTime)
    (hy : 1 ≤ now.year) (hm1 : 1 ≤ now.month) (hm2 : now.month ≤ 12) :
    dtLe (_resolve_anchored_monthly_period created_at now).start now = true ∧
      dtLt now (_resolve_anchored_monthly_period created_at now).end_ = true := by
  unfold _resolve_anchored_monthly_period
  by_cases hlt : dtLt now (_anchored_dt now.year now.month created_at) = true
  · simp only [hlt, if_true]
    by_cases hm : now.month = 1
    · have hprev : _prev_month now.year now.month = (now.year - 1, 12) := by
        simp [_prev_month, hm]
      have hroll : _month_rollover (now.year - 1) 12 = (now.year, 1) := by
        simp [_month_rollover]
        omega
      rw [hprev]
      simp only [anchored_dt_year, anchored_dt_month, hroll]
      constructor
      · have : dtLt now (_anchored_dt (now.year - 1) 12 created_at) = false :=
          dtLt_false_of_ym _ _ (Or.inl (by simp; omega))
        simp [dtLe, this]
      · have h1 : (1 : Nat) = now.month := hm.symm
        rw [h1]
        exact hlt
    · have hprev : _prev_month now.year now.month = (now.year, now.month - 1) := by
        simp [_prev_month, hm]
      have hroll : _month_rollover now.year (now.month - 1) = (now.year, now.month) := by
        have : now.month - 1 ≠ 12 := by omega
        simp [_month_rollover, this]
        omega
      rw [hprev]
      simp only [anchored_dt_year, anchored_dt_month, hroll]
      constructor
      · have : dtLt now (_anchored_dt now.year (now.month - 1) created_at) = false :=
          dtLt_false_of_ym _ _ (Or.inr (by refine ⟨by simp, by simp; omega⟩))
        simp [dtLe, this]
      · exact hlt
  · simp only [hlt, if_false, Bool.false_eq_true]
    constructor
    · simp [dtLe, hlt]
    · by_cases hm : now.month = 12
      · have hroll : _month_rollover now.year now.month = (now.year + 1, 1) := by
          simp [_month_rollover, hm]
        simp only [anchored_dt_year, anchored_dt_month, hroll]
        exact dtLt_of_ym _ _ (Or.inl (by simp))
      · have hroll : _month_rollover now.year now.month = (now.year, now.month + 1) := by
          simp [_month_rollover, hm]
        simp only [anchored_dt_year, anchored_dt_month, hroll]
        exact dtLt_of_ym _ _ (Or.inr (by constructor <;> simp))

theorem findCyclePeriod_eq_none_no_good (now : PyDateTime) :
    ∀ l : List SubscriptionRow, findCyclePeriod l now = none →
      ∀ sub ∈ l, ¬∃ s e, sub.current_period_start = some s ∧
        sub.current_period_end = some e ∧ dtLt s e = true ∧
        dtLe s now = true ∧ dtLt now e = true := by
  intro l
  induction l with
  | nil => intro _ sub hs; simp at hs
  | cons sub rest ih =>
      intro h w hw
      rw [findCyclePeriod] at h
      rcases List.mem_cons.mp hw with hww | hw'
      · subst hww
        rintro ⟨s, e, hcs, hce, hlt, hg1, hg2⟩
        split at h
        case h_1 s' e' hcs' hce' =>
          rw [hcs] at hcs'
          rw [hce] at hce'
          cases Option.some.inj hcs'
          cases Option.some.inj hce'
          have hes : ¬ dtLe e s = true := by simp [dtLe, hlt]
          rw [if_neg hes, if_pos (by simp [hg1, hg2])] at h
          exact Option.noConfusion h
        case h_2 a b hnm =>
          exact hnm s e hcs hce
      · split at h
        case h_1 s e hcs hce =>
          split at h
          case isTrue => exact ih h w hw'
          case isFalse =>
            split at h
            case isTrue => exact Option.noConfusion h
            case isFalse => exact ih h w hw'
        case h_2 => exact ih h w hw'

theorem anchored_source (c n : PyDateTime) :
    (_resolve_anchored_monthly_period c n).source = "anchored_monthly_cycle" :=
  rfl

/-- C8: for every customer account and every instant `now` (with a valid
calendar month and positive year), `resolve_usage_period` returns a
half-open interval containing `now`; it is the current period of a
qualifying (active/trialing/past-due) subscription whenever such a
subscription has set, well-ordered bounds containing `now`, and otherwise
it is the monthly cycle anchored to the account's creation timestamp
(`_resolve_anchored_monthly_period`, whose day-of-month is clamped to the
end of shorter months by `_anchored_dt`). -/
theorem c8_resolve_usage_period (subs : List SubscriptionRow) (created_at now : PyDateTime)
    (hy : 1 ≤ now.year) (hm1 : 1 ≤ now.month) (hm2 : now.month ≤ 12) :
    (dtLe (resolve_usage_period subs created_at now).start now = true ∧
      dtLt now (resolve_usage_period subs created_at now).end_ = true)
    ∧ ((resolve_usage_period subs created_at now).source = "subscription_cycle" →
        ∃ sub ∈ subs, subStatusQualifies sub.status = true ∧
          sub.current_period_start = some (resolve_usage_period subs created_at now).start ∧
          sub.current_period_end = some (resolve_usage_period subs created_at now).end_ ∧
          dtLt (resolve_usage_period subs created_at now).start
            (resolve_usage_period subs created_at now).end_ = true ∧
          (resolve_usage_period subs created_at now).subscription_id = some sub.id)
    ∧ ((∃ sub ∈ subs, subStatusQualifies sub.status = true ∧
          ∃ s e, sub.current_period_start = some s ∧ sub.current_period_end = some e ∧
            dtLt s e = true ∧ dtLe s now = true ∧ dtLt now e = true) →
        (resolve_usage_period subs created_at now).source = "subscription_cycle")
    ∧ ((∀ sub ∈ subs, ¬(subStatusQualifies sub.status = true ∧
          ∃ s e, sub.current_period_start = some s ∧ sub.current_period_end = some e ∧
            dtLt s e = true ∧ dtLe s now = true ∧ dtLt now e = true)) →
        resolve_usage_period subs created_at now =
          _resolve_anchored_monthly_period created_at now) := by
  cases hfc : findCyclePeriod (subs.filter fun s => subStatusQualifies s.status) now with
  | some p =>
      have hres : resolve_usage_period subs created_at now = p := by
        rw [resolve_usage_period, hfc]
      obtain ⟨h1, h2, h3, h4, w, hw, hw1, hw2, hw3⟩ := findCyclePeriod_some now p _ hfc
      obtain ⟨hwmem, hwq⟩ := List.mem_filter.mp hw
      rw [hres]
      refine ⟨⟨h1, h2⟩, ?_, fun _ => h4, ?_⟩
      · intro _
        exact ⟨w, hwmem, hwq, hw1, hw2, h3, hw3⟩
      · intro hnone
        exact absurd ⟨hwq, p.start, p.end_, hw1, hw2, h3, h1, h2⟩ (hnone w hwmem)
  | none =>
      have hres : resolve_usage_period subs created_at now =
          _resolve_anchored_monthly_period created_at now := by
        rw [resolve_usage_period, hfc]
      rw [hres]
      refine ⟨anchored_monthly_contains created_at now hy hm1 hm2, ?_, ?_, fun _ => rfl⟩
      · intro hsrc
        rw [anchored_source] at hsrc
        exact absurd hsrc (by decide)
      · rintro ⟨sub, hmem, hq, s, e, hcs, hce, hlt, hg1, hg2⟩
        have hsubf : sub ∈ subs.filter fun s => subStatusQualifies s.status :=
          List.mem_filter.mpr ⟨hmem, hq⟩
        exact absurd ⟨s, e, hcs, hce, hlt, hg1, hg2⟩
          (findCyclePeriod_eq_none_no_good now _ hfc sub hsubf)

/-- Witness for C8: a concrete account with no subscriptions, whose usage
period in March 2024 is the anchored monthly window [Feb 15, Mar 15). -/
theorem c8_resolve_usage_period_witness :
    (dtLe (resolve_usage_period []
        ⟨2024, 1, 15, 8, 30, 0, 0⟩ ⟨2024, 3, 10, 12, 0, 0, 0⟩).start
      ⟨2024, 3, 10, 12, 0, 0, 0⟩ = true ∧
      dtLt ⟨2024, 3, 10, 12, 0, 0, 0⟩ (resolve_usage_period []
        ⟨2024, 1, 15, 8, 30, 0, 0⟩ ⟨2024, 3, 10, 12, 0, 0, 0⟩).end_ = true) ∧
    resolve_usage_period [] ⟨2024, 1, 15, 8, 30, 0, 0⟩ ⟨2024, 3, 10, 12, 0, 0, 0⟩ =
      _resolve_anchored_monthly_period ⟨2024, 1, 15, 8, 30, 0, 0⟩ ⟨2024, 3, 10, 12, 0, 0, 0⟩ := by
  have h := c8_resolve_usage_period [] ⟨2024, 1, 15, 8, 30, 0, 0⟩ ⟨2024, 3, 10, 12, 0, 0, 0⟩
    (by decide) (by decide) (by decide)
  exact ⟨h.1, h.2.2.2 (by simp)⟩

/-! ## api/tools/ai/usage.py: quota consumption -/

/-- The columns of an `AiUsageEvent` row written and read by the usage
module. -/
structure AiUsageEventRow where
  request_id : String
  customer_account : Nat
  subscription_id : Option Nat
  metric : String
  direction : String
  amount : Int
  provider : String
  model_name : String
  period_start : PyDateTime
  period_end : PyDateTime
  metadata : List (String × JVal)
  created_at : PyDateTime

/-- The per-plan limit dict returned by `get_plan_limits` (`none` is the
Python `None`, i.e. an unlimited metric). -/
structure PlanLimits where
  tokens : Option Int
  images : Option Int
  videos : Option Int
  deriving Repr, DecidableEq, Inhabited

/-- `limits.get(metric)` on a `PlanLimits` dict. -/
def PlanLimits.get (l : PlanLimits) (m : String) : Option Int :=
  if m = "tokens" then l.tokens
  else if m = "images" then l.images
  else if m = "videos" then l.videos
  else none

/-- `get_plan_limits` from `usage.py`. -/
def get_plan_limits (stgs : PySettings) (plan_tier : String) : PlanLimits :=
  if plan_tier = "free" then
    { tokens := some stgs.aiUsageLimitFreeTokens, images := some stgs.aiUsageLimitFreeImages,
      videos := some stgs.aiUsageLimitFreeVideos }
  else if plan_tier = "pro" then
    { tokens := some stgs.aiUsageLimitProTokens, images := some stgs.aiUsageLimitProImages,
      videos := some stgs.aiUsageLimitProVideos }
  else if plan_tier = "enterprise" then
    { tokens := none, images := none, videos := none }
  else
    { tokens := some stgs.aiUsageLimitFreeTokens, images := some stgs.aiUsageLimitFreeImages,
      videos := some stgs.aiUsageLimitFreeVideos }

/-- The totals dict of `get_usage_totals`. -/
structure UsageTotals where
  tokens : Int
  images : Int
  videos : Int
  deriving Repr, DecidableEq, Inhabited

/-- `totals.get(metric, 0)` on a `UsageTotals` dict. -/
def UsageTotals.get (t : UsageTotals) (m : String) : Int :=
  if m = "tokens" then t.tokens
  else if m = "images" then t.images
  else if m = "videos" then t.videos
  else 0

/-- The summed amount of one metric of one account inside a period
(`created_at__gte=period.start, created_at__lt=period.end`). -/
def metricTotal (rows : List AiUsageEventRow) (account : Nat) (p : UsagePeriod)
    (m : String) : Int :=
  ((rows.filter fun r =>
    r.customer_account == account && dtLe p.start r.created_at &&
      dtLt r.created_at p.end_ && r.metric == m).map fun r => r.amount).sum

/-- `get_usage_totals` from `usage.py`. -/
def get_usage_totals (rows : List AiUsageEventRow) (account : Nat) (p : UsagePeriod) :
    UsageTotals :=
  { tokens := metricTotal rows account p "tokens",
    images := metricTotal rows account p "images",
    videos := metricTotal rows account p "videos" }

/-- One entry of the `events` request list of `consume_usage_events`:
`metric` is `str(event.get("metric") or "")` and `amount` is
`int(event.get("amount") or 0)`. -/
structure UsageEventInput where
  metric : String
  amount : Int
  request_id : Option String
  direction : Option String
  provider : String
  model_name : String
  metadata : JVal

/-- The normalized metric name: `.strip().lower()`. -/
def normalizedMetric (e : UsageEventInput) : String :=
  pyLower (pyStrip e.metric)

/-- The validity filter applied to every event: metric among tokens,
images, videos, and amount at least 1; other events are skipped. -/
def validUsageEvent (e : UsageEventInput) : Bool :=
  (normalizedMetric e == "tokens" || normalizedMetric e == "images" ||
    normalizedMetric e == "videos") && (1 ≤ e.amount)

/-- The total valid requested amount of a metric (the value of
`by_metric_requested[metric]`). -/
def requestedTotal (events : List UsageEventInput) (m : String) : Int :=
  ((events.filter fun e => validUsageEvent e && (normalizedMetric e == m)).map
    fun e => e.amount).sum

/-- The exception raised by the quota check; `status_code` is the class
attribute mapped by DRF to the HTTP status. -/
structure UsageLimitExceeded where
  status_code : Nat
  detail : String
  deriving Repr, DecidableEq, Inhabited

/-- `datetime.isoformat()`, with simplified zero-padding. -/
def padNat2 (n : Nat) : String :=
  if n < 10 then "0" ++ toString n else toString n

/-- ISO rendering of a `PyDateTime` used in the 429 detail message. -/
def dtIsoformat (d : PyDateTime) : String :=
  toString d.year ++ "-" ++ padNat2 d.month ++ "-" ++ padNat2 d.day ++ "T" ++
    padNat2 d.hour ++ ":" ++ padNat2 d.minute ++ ":" ++ padNat2 d.second ++
    (if d.microsecond = 0 then "" else "." ++ toString d.microsecond)

/-- The enforcement loop of `consume_usage_events`: walk the requested
metrics in first-occurrence order and raise on the first metric whose
non-null limit leaves less remaining quota than requested. -/
def checkLimits (limits : PlanLimits) (existing : UsageTotals) (req : String → Int)
    (periodEnd : PyDateTime) : List String → Option UsageLimitExceeded
  | [] => none
  | m :: rest =>
      match limits.get m with
      | none => checkLimits limits existing req periodEnd rest
      | some limit =>
          let used := existing.get m
          let remaining := max (limit - used) 0
          if req m > remaining then
            some { status_code := 429,
                   detail := m ++ " quota exceeded for current cycle. Requested " ++
                     toString (req m) ++ ", remaining " ++ toString remaining ++
                     ", resets at " ++ dtIsoformat periodEnd ++ "." }
          else checkLimits limits existing req periodEnd rest

/-- The `request_id` actually stored: the request's id when truthy,
otherwise a fresh `uuid4()`. -/
def requestIdOf (e : UsageEventInput) : Option String :=
  match e.request_id with
  | some r => if r = "" then none else some r
  | none => none

/-- The stored `direction`: the request's when truthy, else `"total"`
(`AiUsageEvent.Direction.TOTAL`). -/
def directionOf (e : UsageEventInput) : String :=
  match e.direction with
  | some d => if d = "" then "total" else d
  | none => "total"

/-- The stored `metadata`: the request's when it is a dict, else `{}`. -/
def metadataOf (e : UsageEventInput) : List (String × JVal) :=
  match e.metadata with
  | .jdict kvs => kvs
  | _ => []

/-- The creation loop of `consume_usage_events`: create one
`AiUsageEvent` row per valid event; `uuidGen k` stands for the k-th call
of `uuid4()`, and `created_at` is the transaction time (`auto_now_add`). -/
def createRows (uuidGen : Nat → String) (account : Nat) (period : UsagePeriod)
    (now : PyDateTime) (k : Nat) : List UsageEventInput → List AiUsageEventRow × Nat
  | [] => ([], k)
  | e :: rest =>
      if validUsageEvent e then
        let ridk : String × Nat :=
          match requestIdOf e with
          | some r => (r, k)
          | none => (uuidGen k, k + 1)
        let row : AiUsageEventRow :=
          { request_id := ridk.1, customer_account := account,
            subscription_id := period.subscription_id, metric := normalizedMetric e,
            direction := directionOf e, amount := e.amount,
            provider := pyLower (pyStrip e.provider), model_name := pyStrip e.model_name,
            period_start := period.start, period_end := period.end_,
            metadata := metadataOf e, created_at := now }
        let rec_ := createRows uuidGen account period now ridk.2 rest
        (row :: rec_.1, rec_.2)
      else createRows uuidGen account period now k rest

/-- The return value of `consume_usage_events`. -/
structure ConsumeResult where
  totals : UsageTotals
  limits : PlanLimits
  deriving Repr, DecidableEq, Inhabited

/-- The enforcement step of `consume_usage_events`: run `checkLimits`
over the requested metrics in first-occurrence order (when enforcement is
enabled), with the per-metric valid requested sums of
`by_metric_requested`. -/
def quotaFailure (stgs : PySettings) (rows : List AiUsageEventRow) (account : Nat)
    (plan_tier : String) (period : UsagePeriod) (events : List UsageEventInput) :
    Option UsageLimitExceeded :=
  if stgs.aiUsageEnforcementEnabled then
    checkLimits (get_plan_limits stgs plan_tier) (get_usage_totals rows account period)
      (fun m => (((events.filter validUsageEvent).filter
        fun e => normalizedMetric e == m).map fun e => e.amount).sum)
      period.end_
      (dedupKeepFirst [] ((events.filter validUsageEvent).map normalizedMetric))
  else none

/-- `consume_usage_events` from `usage.py`. The first component of the
result is the `AiUsageEvent` table after the call: unchanged when the
quota check raises (`transaction.atomic` rolls back), extended by the
created rows otherwise. -/
def consume_usage_events (stgs : PySettings) (rows : List AiUsageEventRow)
    (uuidGen : Nat → String) (account : Nat) (plan_tier : String) (period : UsagePeriod)
    (events : List UsageEventInput) (now : PyDateTime) :
    List AiUsageEventRow × Except UsageLimitExceeded ConsumeResult :=
  if events.isEmpty then
    (rows, .ok { totals := get_usage_totals rows account period,
                 limits := get_plan_limits stgs plan_tier })
  else
    match quotaFailure stgs rows account plan_tier period events with
    | some err => (rows, .error err)
    | none =>
        let newRows := (createRows uuidGen account period now 0 events).1
        let rows' := rows ++ newRows
        (rows', .ok { totals := get_usage_totals rows' account period,
                      limits := get_plan_limits stgs plan_tier })

theorem checkLimits_eq_none_iff (limits : PlanLimits) (existing : UsageTotals)
    (req : String → Int) (pe : PyDateTime) (ms : List String) :
    checkLimits limits existing req pe ms = none ↔
      ∀ m ∈ ms, ∀ l, limits.get m = some l → ¬(req m > max (l - existing.get m) 0) := by
  induction ms with
  | nil => simp [checkLimits]
  | cons m rest ih =>
      rw [checkLimits]
      cases hl : limits.get m with
      | none =>
          simp only [ih]
          constructor
          · intro h w hw
            rcases List.mem_cons.mp hw with hww | hw'
            · subst hww
              intro l hll
              rw [hl] at hll
              exact Option.noConfusion hll
            · exact h w hw'
          · intro h w hw
            exact h w (List.mem_cons_of_mem m hw)
      | some limit =>
          dsimp only
          by_cases hgt : req m > max (limit - existing.get m) 0
          · rw [if_pos hgt]
            simp only [reduceCtorEq, false_iff]
            intro h
            exact absurd hgt (h m (List.mem_cons_self m rest) limit hl)
          · rw [if_neg hgt]
            simp only [ih]
            constructor
            · intro h w hw
              rcases List.mem_cons.mp hw with hww | hw'
              · subst hww
                intro l hll
                rw [hl] at hll
                cases Option.some.inj hll
                exact hgt
              · exact h w hw'
            · intro h w hw
              exact h w (List.mem_cons_of_mem m hw)

theorem checkLimits_some (limits : PlanLimits) (existing : UsageTotals)
    (req : String → Int) (pe : PyDateTime) (ms : List String) (err : UsageLimitExceeded)
    (h : checkLimits limits existing req pe ms = some err) :
    err.status_code = 429 ∧
      ∃ m ∈ ms, ∃ l, limits.get m = some l ∧ req m > max (l - existing.get m) 0 := by
  induction ms with
  | nil => simp [checkLimits] at h
  | cons m rest ih =>
      rw [checkLimits] at h
      cases hl : limits.get m with
      | none =>
          rw [hl] at h
          obtain ⟨h429, w, hw, l, hll, hgt⟩ := ih h
          exact ⟨h429, w, List.mem_cons_of_mem m hw, l, hll, hgt⟩
      | some limit =>
          rw [hl] at h
          dsimp only at h
          by_cases hgt : req m > max (limit - existing.get m) 0
          · rw [if_pos hgt] at h
            cases Option.some.inj h
            exact ⟨rfl, m, List.mem_cons_self m rest, limit, hl, hgt⟩
          · rw [if_neg hgt] at h
            obtain ⟨h429, w, hw, l, hll, hgt'⟩ := ih h
            exact ⟨h429, w, List.mem_cons_of_mem m hw, l, hll, hgt'⟩

theorem validUsageEvent_metric_mem (e : UsageEventInput) (hv : validUsageEvent e = true) :
    normalizedMetric e ∈ ["tokens", "images", "videos"] := by
  unfold validUsageEvent at hv
  obtain ⟨hm, _⟩ := Bool.and_eq_true_iff.mp hv
  rcases Bool.or_eq_true_iff.mp hm with hm' | h3
  · rcases Bool.or_eq_true_iff.mp hm' with h1 | h2
    · simp [beq_iff_eq.mp h1]
    · simp [beq_iff_eq.mp h2]
  · simp [beq_iff_eq.mp h3]

theorem requestedTotal_eq_req (events : List UsageEventInput) (m : String) :
    requestedTotal events m =
      (((events.filter validUsageEvent).filter fun e => normalizedMetric e == m).map
        fun e => e.amount).sum := by
  unfold requestedTotal
  rw [List.filter_filter]
  congr 1
  congr 1
  apply List.filter_congr
  intro e _
  exact Bool.and_comm _ _

theorem requestedTotal_pos_mem (events : List UsageEventInput) (m : String)
    (h : requestedTotal events m > 0) :
    ∃ e ∈ events, validUsageEvent e = true ∧ normalizedMetric e = m := by
  unfold requestedTotal at h
  cases hf : events.filter fun e => validUsageEvent e && (normalizedMetric e == m) with
  | nil => rw [hf] at h; simp at h
  | cons e rest =>
      have he : e ∈ events.filter fun e => validUsageEvent e && (normalizedMetric e == m) := by
        rw [hf]; exact List.mem_cons_self e rest
      obtain ⟨hmem, hp⟩ := List.mem_filter.mp he
      obtain ⟨hv, hm⟩ := Bool.and_eq_true_iff.mp hp
      exact ⟨e, hmem, hv, beq_iff_eq.mp hm⟩

theorem createRows_filter (uuidGen : Nat → String) (account : Nat) (period : UsagePeriod)
    (now : PyDateTime) :
    ∀ (events : List UsageEventInput) (k : Nat),
      createRows uuidGen account period now k (events.filter validUsageEvent) =
        createRows uuidGen account period now k events := by
  intro events
  induction events with
  | nil => intro k; rfl
  | cons e rest ih =>
      intro k
      by_cases hv : validUsageEvent e = true
      · rw [List.filter_cons_of_pos hv]
        rw [createRows, createRows, if_pos hv, if_pos hv]
        simp only [ih]
      · have hv' : validUsageEvent e = false := Bool.eq_false_iff.mpr hv
        rw [List.filter_cons_of_neg (by simp [hv'])]
        conv_rhs => rw [createRows]
        rw [if_neg (by simp [hv'])]
        exact ih k

theorem createRows_mem_props (uuidGen : Nat → String) (account : Nat) (period : UsagePeriod)
    (now : PyDateTime) :
    ∀ (events : List UsageEventInput) (k : Nat),
      ∀ r ∈ (createRows uuidGen account period now k events).1,
        r.customer_account = account ∧ r.created_at = now := by
  intro events
  induction events with
  | nil => intro k r hr; simp [createRows] at hr
  | cons e rest ih =>
      intro k r hr
      rw [createRows] at hr
      by_cases hv : validUsageEvent e = true
      · rw [if_pos hv] at hr
        rcases List.mem_cons.mp hr with hrr | hr'
        · subst hrr
          exact ⟨rfl, rfl⟩
        · exact ih _ r hr'
      · rw [if_neg hv] at hr
        exact ih k r hr

theorem createRows_metric_sum (uuidGen : Nat → String) (account : Nat) (period : UsagePeriod)
    (now : PyDateTime) (m : String) :
    ∀ (events : List UsageEventInput) (k : Nat),
      ((((createRows uuidGen account period now k events).1.filter
        fun r => r.metric == m).map fun r => r.amount)).sum = requestedTotal events m := by
  intro events
  induction events with
  | nil => intro k; simp [createRows, requestedTotal]
  | cons e rest ih =>
      intro k
      rw [createRows]
      by_cases hv : validUsageEvent e = true
      · rw [if_pos hv]
        have hreq : requestedTotal (e :: rest) m =
            (if normalizedMetric e == m then e.amount else 0) + requestedTotal rest m := by
          unfold requestedTotal
          rw [List.filter_cons]
          by_cases hm : (normalizedMetric e == m) = true
          · rw [if_pos (by simp [hv, hm]), if_pos hm]
            simp
          · have hm' : (normalizedMetric e == m) = false := Bool.eq_false_iff.mpr hm
            rw [if_neg (by simp [hm']), if_neg (by simp [hm'])]
            simp
        rw [hreq]
        simp only [List.filter_cons]
        by_cases hm : (normalizedMetric e == m) = true
        · rw [if_pos (by simpa using hm), if_pos hm]
          simp only [List.map_cons, List.sum_cons]
          rw [ih]
        · have hm' : (normalizedMetric e == m) = false := Bool.eq_false_iff.mpr hm
          rw [if_neg (by simp [hm']), if_neg (by simp [hm'])]
          simp only [Int.zero_add]
          exact ih _
      · rw [if_neg hv]
        have hreq : requestedTotal (e :: rest) m = requestedTotal rest m := by
          unfold requestedTotal
          rw [List.filter_cons_of_neg (by simp [Bool.eq_false_iff.mpr hv])]
        rw [hreq]
        exact ih k

theorem metricTotal_append (rows1 rows2 : List AiUsageEventRow) (account : Nat)
    (p : UsagePeriod) (m : String) :
    metricTotal (rows1 ++ rows2) account p m =
      metricTotal rows1 account p m + metricTotal rows2 account p m := by
  unfold metricTotal
  rw [List.filter_append, List.map_append, List.sum_append]

/-- The raising condition of C2: enforcement enabled and some metric with
a non-null plan limit whose total valid requested amount exceeds the
remaining quota `max(limit - used, 0)`. -/
def quotaExceeds (stgs : PySettings) (rows : List AiUsageEventRow) (account : Nat)
    (plan_tier : String) (period : UsagePeriod) (events : List UsageEventInput) : Prop :=
  stgs.aiUsageEnforcementEnabled = true ∧
    ∃ m ∈ ["tokens", "images", "videos"], ∃ l : Int,
      (get_plan_limits stgs plan_tier).get m = some l ∧
      requestedTotal events m > max (l - (get_usage_totals rows account period).get m) 0

theorem three_metric_ne_empty (m : String) (hm : m ∈ ["tokens", "images", "videos"]) :
    m ≠ "" := by
  simp only [List.mem_cons, List.not_mem_nil, or_false] at hm
  rcases hm with h | h | h
  · subst h; decide
  · subst h; decide
  · subst h; decide

theorem quotaFailure_none_iff (stgs : PySettings) (rows : List AiUsageEventRow)
    (account : Nat) (plan_tier : String) (period : UsagePeriod)
    (events : List UsageEventInput) :
    quotaFailure stgs rows account plan_tier period events = none ↔
      ¬quotaExceeds stgs rows account plan_tier period events := by
  unfold quotaFailure
  by_cases henf : stgs.aiUsageEnforcementEnabled = true
  · rw [if_pos henf, checkLimits_eq_none_iff]
    constructor
    · rintro h ⟨_, m, hm3, l, hl, hgt⟩
      have hpos : requestedTotal events m > 0 := by
        have h0 : (0 : Int) ≤ max (l - (get_usage_totals rows account period).get m) 0 :=
          le_max_right _ _
        omega
      obtain ⟨e, hmem, hv, hnm⟩ := requestedTotal_pos_mem events m hpos
      have hmmap : m ∈ (events.filter validUsageEvent).map normalizedMetric :=
        List.mem_map.mpr ⟨e, List.mem_filter.mpr ⟨hmem, hv⟩, hnm⟩
      have hmreq : m ∈ dedupKeepFirst []
          ((events.filter validUsageEvent).map normalizedMetric) :=
        dedupKeepFirst_mem_to _ [] m hmmap (three_metric_ne_empty m hm3) rfl
      have := h m hmreq l hl
      rw [← requestedTotal_eq_req] at this
      exact this hgt
    · intro h m hmreq l hl hgt
      obtain ⟨hmmap, _⟩ := dedupKeepFirst_mem_of _ [] m hmreq
      obtain ⟨e, hef, hnm⟩ := List.mem_map.mp hmmap
      obtain ⟨_, hv⟩ := List.mem_filter.mp hef
      have hm3 : m ∈ ["tokens", "images", "videos"] :=
        hnm ▸ validUsageEvent_metric_mem e hv
      rw [← requestedTotal_eq_req] at hgt
      exact h ⟨henf, m, hm3, l, hl, hgt⟩
  · rw [if_neg henf]
    simp only [true_iff]
    rintro ⟨henf', _⟩
    exact henf henf'

theorem quotaFailure_some (stgs : PySettings) (rows : List AiUsageEventRow)
    (account : Nat) (plan_tier : String) (period : UsagePeriod)
    (events : List UsageEventInput) (err : UsageLimitExceeded)
    (h : quotaFailure stgs rows account plan_tier period events = some err) :
    err.status_code = 429 ∧ quotaExceeds stgs rows account plan_tier period events := by
  unfold quotaFailure at h
  by_cases henf : stgs.aiUsageEnforcementEnabled = true
  · rw [if_pos henf] at h
    obtain ⟨h429, m, hmreq, l, hl, hgt⟩ := checkLimits_some _ _ _ _ _ _ h
    obtain ⟨hmmap, _⟩ := dedupKeepFirst_mem_of _ [] m hmreq
    obtain ⟨e, hef, hnm⟩ := List.mem_map.mp hmmap
    obtain ⟨_, hv⟩ := List.mem_filter.mp hef
    have hm3 : m ∈ ["tokens", "images", "videos"] :=
      hnm ▸ validUsageEvent_metric_mem e hv
    rw [← requestedTotal_eq_req] at hgt
    exact ⟨h429, henf, m, hm3, l, hl, hgt⟩
  · rw [if_neg henf] at h
    exact Option.noConfusion h

theorem metricTotal_created (uuidGen : Nat → String) (account : Nat) (period : UsagePeriod)
    (now : PyDateTime) (events : List UsageEventInput) (k : Nat) (m : String)
    (hin1 : dtLe period.start now = true) (hin2 : dtLt now period.end_ = true) :
    metricTotal (createRows uuidGen account period now k events).1 account period m =
      requestedTotal events m := by
  unfold metricTotal
  have hcong : ((createRows uuidGen account period now k events).1.filter fun r =>
      r.customer_account == account && dtLe period.start r.created_at &&
        dtLt r.created_at period.end_ && r.metric == m) =
      ((createRows uuidGen account period now k events).1.filter fun r => r.metric == m) := by
    apply List.filter_congr
    intro r hr
    obtain ⟨ha, hc⟩ := createRows_mem_props uuidGen account period now events k r hr
    simp [ha, hc, hin1, hin2]
  rw [hcong]
  exact createRows_metric_sum uuidGen account period now m events k

theorem get_usage_totals_get_three (rows : List AiUsageEventRow) (account : Nat)
    (p : UsagePeriod) (m : String) (hm : m ∈ ["tokens", "images", "videos"]) :
    (get_usage_totals rows account p).get m = metricTotal rows account p m := by
  simp only [List.mem_cons, List.not_mem_nil, or_false] at hm
  rcases hm with h | h | h
  · subst h; simp [get_usage_totals, UsageTotals.get]
  · subst h; simp [get_usage_totals, UsageTotals.get]
  · subst h; simp [get_usage_totals, UsageTotals.get]

/-- C2: `consume_usage_events` raises `UsageLimitExceeded` (status 429) if
and only if enforcement is enabled and some metric in tokens/images/videos
with a non-null plan limit has total valid requested amount exceeding
`max(limit - used, 0)`; when it raises the stored rows are unchanged, and
when it does not raise exactly the rows created from the valid events are
appended and the returned totals include them. -/
theorem c2_consume_usage_events (stgs : PySettings) (rows : List AiUsageEventRow)
    (uuidGen : Nat → String) (account : Nat) (plan_tier : String) (period : UsagePeriod)
    (events : List UsageEventInput) (now : PyDateTime)
    (hin1 : dtLe period.start now = true) (hin2 : dtLt now period.end_ = true) :
    ((∃ err, (consume_usage_events stgs rows uuidGen account plan_tier period
        events now).2 = .error err) ↔
      quotaExceeds stgs rows account plan_tier period events)
    ∧ (∀ err, (consume_usage_events stgs rows uuidGen account plan_tier period
        events now).2 = .error err →
        err.status_code = 429 ∧
        (consume_usage_events stgs rows uuidGen account plan_tier period events now).1 = rows)
    ∧ (∀ res, (consume_usage_events stgs rows uuidGen account plan_tier period
        events now).2 = .ok res →
        (consume_usage_events stgs rows uuidGen account plan_tier period events now).1 =
          rows ++ (createRows uuidGen account period now 0 events).1 ∧
        res.limits = get_plan_limits stgs plan_tier ∧
        ∀ m ∈ ["tokens", "images", "videos"],
          res.totals.get m =
            (get_usage_totals rows account period).get m + requestedTotal events m) := by
  by_cases hemp : events.isEmpty = true
  · have hev : events = [] := List.isEmpty_iff.mp hemp
    subst hev
    have hc : consume_usage_events stgs rows uuidGen account plan_tier period [] now =
        (rows, .ok { totals := get_usage_totals rows account period,
                     limits := get_plan_limits stgs plan_tier }) := rfl
    rw [hc]
    refine ⟨?_, ?_, ?_⟩
    · constructor
      · rintro ⟨err, herr⟩
        exact Except.noConfusion herr
      · rintro ⟨_, m, hm3, l, hl, hgt⟩
        have h0 : requestedTotal [] m = 0 := rfl
        rw [h0] at hgt
        have h1 : (0 : Int) ≤ max (l - (get_usage_totals rows account period).get m) 0 :=
          le_max_right _ _
        omega
    · intro err h
      exact Except.noConfusion h
    · intro res h
      cases Except.ok.inj h
      refine ⟨by simp [createRows], rfl, ?_⟩
      intro m _
      have h0 : requestedTotal [] m = 0 := rfl
      rw [h0, Int.add_zero]
  · have hemp' : events.isEmpty = false := Bool.eq_false_iff.mpr hemp
    cases hqf : quotaFailure stgs rows account plan_tier period events with
    | some err0 =>
        have hc : consume_usage_events stgs rows uuidGen account plan_tier period
            events now = (rows, .error err0) := by
          rw [consume_usage_events, if_neg (by simp [hemp']), hqf]
        obtain ⟨h429, hex⟩ := quotaFailure_some stgs rows account plan_tier period
          events err0 hqf
        rw [hc]
        refine ⟨?_, ?_, ?_⟩
        · exact ⟨fun _ => hex, fun _ => ⟨err0, rfl⟩⟩
        · intro err h
          cases Except.error.inj h
          exact ⟨h429, rfl⟩
        · intro res h
          exact Except.noConfusion h
    | none =>
        have hc : consume_usage_events stgs rows uuidGen account plan_tier period
            events now =
            (rows ++ (createRows uuidGen account period now 0 events).1,
             .ok { totals := get_usage_totals
                     (rows ++ (createRows uuidGen account period now 0 events).1)
                     account period,
                   limits := get_plan_limits stgs plan_tier }) := by
          rw [consume_usage_events, if_neg (by simp [hemp']), hqf]
        have hnex := (quotaFailure_none_iff stgs rows account plan_tier period events).mp hqf
        rw [hc]
        refine ⟨?_, ?_, ?_⟩
        · constructor
          · rintro ⟨err, herr⟩
            exact Except.noConfusion herr
          · intro hex
            exact absurd hex hnex
        · intro err h
          exact Except.noConfusion h
        · intro res h
          cases Except.ok.inj h
          refine ⟨rfl, rfl, ?_⟩
          intro m hm
          rw [get_usage_totals_get_three _ _ _ m hm, get_usage_totals_get_three _ _ _ m hm,
            metricTotal_append,
            metricTotal_created uuidGen account period now events 0 m hin1 hin2]

/-- Witness for C2 at concrete inputs: one valid tokens event of amount 6
against a free-tier limit of 5 raises with status 429 and leaves the
table unchanged. -/
theorem c2_consume_usage_events_witness :
    ((∃ err, (consume_usage_events
        { aiUsageLimitFreeTokens := 5 : PySettings } [] (fun _ => "u") 1 "free"
        { start := ⟨2024, 1, 1, 0, 0, 0, 0⟩, end_ := ⟨2024, 2, 1, 0, 0, 0, 0⟩,
          source := "anchored_monthly_cycle", subscription_id := none }
        [{ metric := "tokens", amount := 6, request_id := none, direction := none,
           provider := "", model_name := "", metadata := .jnull }]
        ⟨2024, 1, 15, 0, 0, 0, 0⟩).2 = .error err) ↔
      quotaExceeds { aiUsageLimitFreeTokens := 5 : PySettings } [] 1 "free"
        { start := ⟨2024, 1, 1, 0, 0, 0, 0⟩, end_ := ⟨2024, 2, 1, 0, 0, 0, 0⟩,
          source := "anchored_monthly_cycle", subscription_id := none }
        [{ metric := "tokens", amount := 6, request_id := none, direction := none,
           provider := "", model_name := "", metadata := .jnull }]) ∧
    quotaExceeds { aiUsageLimitFreeTokens := 5 : PySettings } [] 1 "free"
      { start := ⟨2024, 1, 1, 0, 0, 0, 0⟩, end_ := ⟨2024, 2, 1, 0, 0, 0, 0⟩,
        source := "anchored_monthly_cycle", subscription_id := none }
      [{ metric := "tokens", amount := 6, request_id := none, direction := none,
         provider := "", model_name := "", metadata := .jnull }] := by
  have h := c2_consume_usage_events { aiUsageLimitFreeTokens := 5 : PySettings } []
    (fun _ => "u") 1 "free"
    { start := ⟨2024, 1, 1, 0, 0, 0, 0⟩, end_ := ⟨2024, 2, 1, 0, 0, 0, 0⟩,
      source := "anchored_monthly_cycle", subscription_id := none }
    [{ metric := "tokens", amount := 6, request_id := none, direction := none,
       provider := "", model_name := "", metadata := .jnull }]
    ⟨2024, 1, 15, 0, 0, 0, 0⟩ (by decide) (by decide)
  refine ⟨h.1, ?_⟩
  refine ⟨rfl, "tokens", by simp, 5, rfl, ?_⟩
  decide

theorem consume_usage_events_filter_valid (stgs : PySettings) (rows : List AiUsageEventRow)
    (uuidGen : Nat → String) (account : Nat) (plan_tier : String) (period : UsagePeriod)
    (events : List UsageEventInput) (now : PyDateTime) :
    consume_usage_events stgs rows uuidGen account plan_tier period
      (events.filter validUsageEvent) now =
    consume_usage_events stgs rows uuidGen account plan_tier period events now := by
  by_cases hfe : events.filter validUsageEvent = []
  · by_cases hev : events = []
    · rw [hev, List.filter_nil]
    · rw [hfe]
      have hemp2 : events.isEmpty = false := by simp [hev]
      have hq : quotaFailure stgs rows account plan_tier period events = none := by
        unfold quotaFailure
        simp only [hfe]
        simp [dedupKeepFirst, checkLimits]
      have hcreated : (createRows uuidGen account period now 0 events).1 = [] := by
        rw [← createRows_filter, hfe]
        rfl
      rw [consume_usage_events]
      conv_rhs => rw [consume_usage_events]
      rw [if_pos (by simp), if_neg (by simp [hemp2]), hq]
      simp [hcreated]
  · have hev : events ≠ [] := fun h => hfe (by rw [h, List.filter_nil])
    have hemp1 : (events.filter validUsageEvent).isEmpty = false := by simp [hfe]
    have hemp2 : events.isEmpty = false := by simp [hev]
    have hqeq : quotaFailure stgs rows account plan_tier period
        (events.filter validUsageEvent) =
        quotaFailure stgs rows account plan_tier period events := by
      unfold quotaFailure
      simp only [List.filter_filter, Bool.and_self]
    rw [consume_usage_events]
    conv_rhs => rw [consume_usage_events]
    rw [if_neg (by simp [hemp1]), if_neg (by simp [hemp2]), hqeq]
    simp only [createRows_filter]

/-- C10: `consume_usage_events` silently ignores malformed events — the
call behaves exactly as if the malformed events were absent, and a call
whose events are all malformed changes no state and returns the current
totals and limits. -/
theorem c10_consume_usage_events_malformed (stgs : PySettings)
    (rows : List AiUsageEventRow) (uuidGen : Nat → String) (account : Nat)
    (plan_tier : String) (period : UsagePeriod) (events : List UsageEventInput)
    (now : PyDateTime) :
    consume_usage_events stgs rows uuidGen account plan_tier period
      (events.filter validUsageEvent) now =
      consume_usage_events stgs rows uuidGen account plan_tier period events now
    ∧ ((∀ e ∈ events, validUsageEvent e = false) →
        consume_usage_events stgs rows uuidGen account plan_tier period events now =
          (rows, .ok { totals := get_usage_totals rows account period,
                       limits := get_plan_limits stgs plan_tier })) := by
  refine ⟨consume_usage_events_filter_valid stgs rows uuidGen account plan_tier period
    events now, ?_⟩
  intro hall
  have hfe : events.filter validUsageEvent = [] :=
    List.filter_eq_nil_iff.mpr fun e he => by simp [hall e he]
  rw [← consume_usage_events_filter_valid stgs rows uuidGen account plan_tier period
    events now, hfe]
  rfl

/-- Witness for C10: a single event with an unknown metric is ignored and
the call returns the current totals. -/
theorem c10_consume_usage_events_malformed_witness :
    consume_usage_events {} [] (fun _ => "u") 1 "free"
      { start := ⟨2024, 1, 1, 0, 0, 0, 0⟩, end_ := ⟨2024, 2, 1, 0, 0, 0, 0⟩,
        source := "anchored_monthly_cycle", subscription_id := none }
      [{ metric := "words", amount := 3, request_id := none, direction := none,
         provider := "", model_name := "", metadata := .jnull }]
      ⟨2024, 1, 15, 0, 0, 0, 0⟩ =
      ([], .ok { totals := get_usage_totals [] 1
                   { start := ⟨2024, 1, 1, 0, 0, 0, 0⟩, end_ := ⟨2024, 2, 1, 0, 0, 0, 0⟩,
                     source := "anchored_monthly_cycle", subscription_id := none },
                 limits := get_plan_limits {} "free" }) :=
  (c10_consume_usage_events_malformed {} [] (fun _ => "u") 1 "free"
    { start := ⟨2024, 1, 1, 0, 0, 0, 0⟩, end_ := ⟨2024, 2, 1, 0, 0, 0, 0⟩,
      source := "anchored_monthly_cycle", subscription_id := none }
    [{ metric := "words", amount := 3, request_id := none, direction := none,
       provider := "", model_name := "", metadata := .jnull }]
    ⟨2024, 1, 15, 0, 0, 0, 0⟩).2 (by decide)

theorem dropWhile_pyIsSpace_map_toUpper (l : List Char) :
    (l.map Char.toUpper).dropWhile pyIsSpace = (l.dropWhile pyIsSpace).map Char.toUpper := by
  rw [List.dropWhile_map]
  have h : pyIsSpace ∘ Char.toUpper = pyIsSpace := funext pyIsSpace_toUpper
  rw [h]

theorem rdropWhile_pyIsSpace_map_toUpper (l : List Char) :
    List.rdropWhile pyIsSpace (l.map Char.toUpper) =
      (List.rdropWhile pyIsSpace l).map Char.toUpper := by
  unfold List.rdropWhile
  rw [← List.map_reverse, dropWhile_pyIsSpace_map_toUpper, List.map_reverse]

theorem pyStrip_pyUpper (s : String) : pyStrip (pyUpper s) = pyUpper (pyStrip s) := by
  unfold pyStrip pyUpper pyStripList
  refine congrArg String.mk ?_
  show List.rdropWhile pyIsSpace ((s.data.map Char.toUpper).dropWhile pyIsSpace) = _
  rw [dropWhile_pyIsSpace_map_toUpper, rdropWhile_pyIsSpace_map_toUpper]

theorem pyUpper_length (s : String) : (pyUpper s).length = s.length := by
  show (s.data.map Char.toUpper).length = s.data.length
  exact List.length_map _ _

/-! ## api/models/commerce.py: Order -/

/-- `Order.Status` choices. -/
inductive OrderStatus where
  | draft
  | pending_payment
  | paid
  | fulfilled
  | canceled
  | refunded
  deriving Repr, DecidableEq, Inhabited

/-- The columns of an `Order` row used by validation and by the payment
confirmation flow. -/
structure Order where
  public_id : String
  customer_account : Nat
  status : OrderStatus
  currency : String
  subtotal_cents : Nat
  tax_cents : Nat
  total_cents : Nat
  notes : String
  clerk_checkout_id : String
  external_reference : String
  paid_at : Option PyDateTime
  fulfilled_at : Option PyDateTime
  deriving Repr, DecidableEq, Inhabited

/-- `Order.clean` from `commerce.py`: normalize the text fields, then
validate the currency length and the total. -/
def Order.clean (o : Order) : Except String Order :=
  let currency := pyUpper (pyStrip (if o.currency = "" then "USD" else o.currency))
  let notes := pyStrip o.notes
  let clerk_checkout_id := pyStrip o.clerk_checkout_id
  let external_reference := pyStrip o.external_reference
  if currency.length ≠ 3 then
    .error "Currency must be a 3-letter code."
  else if o.total_cents ≠ o.subtotal_cents + o.tax_cents then
    .error "Total must match subtotal + tax."
  else
    .ok { o with currency := currency, notes := notes,
                 clerk_checkout_id := clerk_checkout_id,
                 external_reference := external_reference }

/-- `Order.save` from `commerce.py`: `full_clean()` then persist; the
saved row is the cleaned record, and a validation error saves nothing. -/
def Order.save (o : Order) : Except String Order :=
  Order.clean o

/-- C6: every successfully saved `Order` satisfies
`total_cents = subtotal_cents + tax_cents` and stores a 3-character,
fully-uppercased, whitespace-trimmed currency code; and `save` raises
exactly when the total mismatches or the trimmed (defaulted) currency is
not 3 characters long. -/
theorem c6_order_save (o : Order) :
    (∀ o', Order.save o = .ok o' →
      o'.total_cents = o'.subtotal_cents + o'.tax_cents ∧
      o'.currency.length = 3 ∧
      pyUpper o'.currency = o'.currency ∧
      pyStrip o'.currency = o'.currency ∧
      o'.subtotal_cents = o.subtotal_cents ∧ o'.tax_cents = o.tax_cents ∧
      o'.total_cents = o.total_cents ∧ o'.status = o.status)
    ∧ ((∃ e, Order.save o = .error e) ↔
        ((pyStrip (if o.currency = "" then "USD" else o.currency)).length ≠ 3 ∨
          o.total_cents ≠ o.subtotal_cents + o.tax_cents)) := by
  unfold Order.save Order.clean
  by_cases hlen : (pyUpper (pyStrip (if o.currency = "" then "USD" else o.currency))).length ≠ 3
  · rw [if_pos hlen]
    refine ⟨fun o' h => Except.noConfusion h, ?_⟩
    constructor
    · intro _
      left
      rwa [pyUpper_length] at hlen
    · intro _
      exact ⟨_, rfl⟩
  · rw [if_neg hlen]
    by_cases htot : o.total_cents ≠ o.subtotal_cents + o.tax_cents
    · rw [if_pos htot]
      refine ⟨fun o' h => Except.noConfusion h, ?_⟩
      exact ⟨fun _ => Or.inr htot, fun _ => ⟨_, rfl⟩⟩
    · rw [if_neg htot]
      constructor
      · intro o' h
        cases Except.ok.inj h
        dsimp only
        have hc3 : (pyUpper (pyStrip (if o.currency = "" then "USD" else o.currency))).length
            = 3 := by omega
        refine ⟨by omega, hc3, ?_, ?_, rfl, rfl, rfl, rfl⟩
        · exact pyUpper_pyUpper _
        · rw [pyStrip_pyUpper, pyStrip_pyStrip]
      · constructor
        · rintro ⟨e, he⟩
          exact Except.noConfusion he
        · rintro (h | h)
          · rw [pyUpper_length] at hlen
            exact absurd h hlen
          · exact absurd h htot

/-- Witness for C6: a draft order with blank currency (defaulted to USD)
and a consistent total saves successfully with the invariants, and an
order whose total mismatches raises. -/
theorem c6_order_save_witness :
    ((∃ e, Order.save
        { public_id := "o2", customer_account := 1, status := .draft, currency := "usd",
          subtotal_cents := 100, tax_cents := 10, total_cents := 111, notes := "",
          clerk_checkout_id := "", external_reference := "", paid_at := none,
          fulfilled_at := none } = .error e) ↔
      ((pyStrip (if ("usd" : String) = "" then "USD" else "usd")).length ≠ 3 ∨
        (111 : Nat) ≠ 100 + 10)) ∧
    (∃ e, Order.save
        { public_id := "o2", customer_account := 1, status := .draft, currency := "usd",
          subtotal_cents := 100, tax_cents := 10, total_cents := 111, notes := "",
          clerk_checkout_id := "", external_reference := "", paid_at := none,
          fulfilled_at := none } = .error e) := by
  have h := (c6_order_save
    { public_id := "o2", customer_account := 1, status := .draft, currency := "usd",
      subtotal_cents := 100, tax_cents := 10, total_cents := 111, notes := "",
      clerk_checkout_id := "", external_reference := "", paid_at := none,
      fulfilled_at := none }).2
  exact ⟨h, h.mpr (Or.inr (by decide))⟩

/-! ## api/models/commerce.py: DownloadGrant, and the download endpoint -/

/-- The columns of a `DownloadGrant` row used by `can_download`, `clean`
and the download-access endpoint. -/
structure DownloadGrant where
  token : String
  customer_account : Nat
  order_item : Nat
  asset : Nat
  expires_at : Option PyDateTime
  max_downloads : Nat
  download_count : Nat
  last_downloaded_at : Option PyDateTime
  is_active : Bool
  deriving Repr, DecidableEq, Inhabited

/-- Is the grant expired at `now` (`self.expires_at and
timezone.now() >= self.expires_at`)? -/
def DownloadGrant.expired (g : DownloadGrant) (now : PyDateTime) : Bool :=
  match g.expires_at with
  | some e => dtLe e now
  | none => false

/-- `DownloadGrant.can_download` from `commerce.py`. -/
def DownloadGrant.can_download (g : DownloadGrant) (now : PyDateTime) : Bool :=
  if g.is_active = false then false
  else if g.expired now = true then false
  else if g.max_downloads ≠ 0 ∧ g.download_count ≥ g.max_downloads then false
  else true

/-- `DownloadGrant.clean` from `commerce.py`; `order_item_product` and
`asset_product` are the product ids behind the two foreign keys. -/
def DownloadGrant.clean (g : DownloadGrant) (order_item_product asset_product : Nat) :
    Except String Unit :=
  if g.max_downloads ≠ 0 ∧ g.max_downloads < 1 then
    .error "max_downloads must be at least 1."
  else if order_item_product ≠ asset_product then
    .error "Download asset must belong to the same product as order item."
  else
    .ok ()

/-- The outcome of `build_digital_asset_download_url` for one request. -/
inductive StorageOutcome where
  | url (u : String)
  | configError (msg : String)
  | storageError (msg : String)
  deriving Repr, DecidableEq, Inhabited

/-- The HTTP response of `AccountDownloadAccessView.post`. -/
inductive DownloadResponse where
  | ok (download_url : String)
  | forbidden
  | notFound
  | unavailable (status : Nat)
  deriving Repr, DecidableEq, Inhabited

/-- The body of `AccountDownloadAccessView.post` acting on the grant found
by `get_object_or_404`: 403 when `can_download` is false, 503/502 on
storage errors, otherwise increment `download_count`, stamp
`last_downloaded_at` and return the signed URL. -/
def accountDownloadAccessStep (g : DownloadGrant) (storage : StorageOutcome)
    (now : PyDateTime) : DownloadGrant × DownloadResponse :=
  if g.can_download now = false then (g, .forbidden)
  else
    match storage with
    | .configError _ => (g, .unavailable 503)
    | .storageError _ => (g, .unavailable 502)
    | .url u =>
        ({ g with download_count := g.download_count + 1,
                  last_downloaded_at := some now }, .ok u)

/-- `AccountDownloadAccessView.post` over the grant table: look the grant
up by token and owner, then run the access step and write the grant
back. -/
def accountDownloadAccess (grants : List DownloadGrant) (account : Nat) (token : String)
    (storage : StorageOutcome) (now : PyDateTime) : List DownloadGrant × DownloadResponse :=
  match grants.find? fun g => g.token == token && g.customer_account == account with
  | none => (grants, .notFound)
  | some g =>
      let r := accountDownloadAccessStep g storage now
      if r.2 = .forbidden ∨ r.2 = .unavailable 503 ∨ r.2 = .unavailable 502 then
        (grants, r.2)
      else
        (grants.map fun x =>
          if x.token == token && x.customer_account == account then r.1 else x, r.2)

/-- A sequence of requests against one grant: the final grant and the
number of successful downloads (200 responses). -/
def runDownloads (g : DownloadGrant) : List (StorageOutcome × PyDateTime) → DownloadGrant × Nat
  | [] => (g, 0)
  | (st, now) :: rest =>
      let r := accountDownloadAccessStep g st now
      let rec_ := runDownloads r.1 rest
      (rec_.1, (match r.2 with | .ok _ => 1 | _ => 0) + rec_.2)

theorem can_download_true_count_lt (g : DownloadGrant) (now : PyDateTime)
    (hpos : 0 < g.max_downloads) (h : g.can_download now = true) :
    g.download_count < g.max_downloads := by
  unfold DownloadGrant.can_download at h
  by_cases ha : g.is_active = false
  · rw [if_pos ha] at h
    exact Bool.noConfusion h
  · rw [if_neg ha] at h
    by_cases he : g.expired now = true
    · rw [if_pos he] at h
      exact Bool.noConfusion h
    · rw [if_neg he] at h
      by_cases hm : g.max_downloads ≠ 0 ∧ g.download_count ≥ g.max_downloads
      · rw [if_pos hm] at h
        exact Bool.noConfusion h
      · rw [if_neg hm] at h
        omega

theorem accountDownloadAccessStep_cases (g : DownloadGrant) (storage : StorageOutcome)
    (now : PyDateTime) :
    (g.can_download now = false → accountDownloadAccessStep g storage now = (g, .forbidden))
    ∧ (∀ g' u, accountDownloadAccessStep g storage now = (g', .ok u) →
        g.can_download now = true ∧
        g'.download_count = g.download_count + 1 ∧
        g'.max_downloads = g.max_downloads ∧
        g'.is_active = g.is_active ∧ g'.expires_at = g.expires_at)
    ∧ (∀ g' resp, accountDownloadAccessStep g storage now = (g', resp) →
        (∀ u, resp ≠ .ok u) → g' = g) := by
  refine ⟨?_, ?_, ?_⟩
  · intro h
    unfold accountDownloadAccessStep
    rw [if_pos h]
  · intro g' u h
    unfold accountDownloadAccessStep at h
    by_cases hc : g.can_download now = false
    · rw [if_pos hc] at h
      cases Prod.mk.injEq .. ▸ h
      exact absurd (congrArg Prod.snd h) (by simp)
    · rw [if_neg hc] at h
      cases storage with
      | configError m => exact absurd (congrArg Prod.snd h) (by simp)
      | storageError m => exact absurd (congrArg Prod.snd h) (by simp)
      | url u' =>
          have hg' := congrArg Prod.fst h
          simp at hg'
          refine ⟨Bool.of_not_eq_false hc, ?_, ?_, ?_, ?_⟩ <;> rw [← hg']
  · intro g' resp h hno
    unfold accountDownloadAccessStep at h
    by_cases hc : g.can_download now = false
    · rw [if_pos hc] at h
      exact (congrArg Prod.fst h).symm
    · rw [if_neg hc] at h
      cases storage with
      | configError m => exact (congrArg Prod.fst h).symm
      | storageError m => exact (congrArg Prod.fst h).symm
      | url u' =>
          have := congrArg Prod.snd h
          simp at this
          exact absurd this.symm (hno u')

theorem runDownloads_invariant :
    ∀ (reqs : List (StorageOutcome × PyDateTime)) (g : DownloadGrant),
      0 < g.max_downloads →
      (runDownloads g reqs).1.max_downloads = g.max_downloads ∧
      (runDownloads g reqs).1.download_count = g.download_count + (runDownloads g reqs).2 ∧
      ((runDownloads g reqs).2 = 0 ∨
        (runDownloads g reqs).1.download_count ≤ g.max_downloads) := by
  intro reqs
  induction reqs with
  | nil => intro g hpos; exact ⟨rfl, by simp [runDownloads], Or.inl rfl⟩
  | cons req rest ih =>
      intro g hpos
      obtain ⟨st, now⟩ := req
      rw [runDownloads]
      obtain ⟨hforb, hok, hother⟩ := accountDownloadAccessStep_cases g st now
      cases hstep : accountDownloadAccessStep g st now with
      | mk g' resp =>
          cases hresp : resp with
          | ok u =>
              obtain ⟨hcan, hcount, hmax, _, _⟩ := hok g' u (by rw [hstep, hresp])
              have hlt : g.download_count < g.max_downloads :=
                can_download_true_count_lt g now hpos hcan
              have hpos' : 0 < g'.max_downloads := by rw [hmax]; exact hpos
              obtain ⟨ihmax, ihcount, ihbound⟩ := ih g' hpos'
              dsimp only
              refine ⟨by rw [ihmax, hmax], by rw [ihcount, hcount]; omega, Or.inr ?_⟩
              rcases ihbound with h0 | hb
              · rw [ihcount, h0, hcount]
                omega
              · rw [hmax] at hb
                exact hb
          | forbidden =>
              have hg' : g' = g := hother g' resp (by rw [hstep]) (by rw [hresp]; intro u; simp)
              subst g'
              subst hresp
              obtain ⟨ihmax, ihcount, ihbound⟩ := ih g hpos
              dsimp only
              exact ⟨ihmax, by omega, by simpa using ihbound⟩
          | notFound =>
              have hg' : g' = g := hother g' resp (by rw [hstep]) (by rw [hresp]; intro u; simp)
              subst g'
              subst hresp
              obtain ⟨ihmax, ihcount, ihbound⟩ := ih g hpos
              dsimp only
              exact ⟨ihmax, by omega, by simpa using ihbound⟩
          | unavailable s =>
              have hg' : g' = g := hother g' resp (by rw [hstep]) (by rw [hresp]; intro u; simp)
              subst g'
              subst hresp
              obtain ⟨ihmax, ihcount, ihbound⟩ := ih g hpos
              dsimp only
              exact ⟨ihmax, by omega, by simpa using ihbound⟩

/-- C4: a `DownloadGrant` with positive `max_downloads` is
attempt-limited: the endpoint answers 403 without touching
`download_count` whenever `can_download` is false (inactive, expired, or
out of attempts), every successful access increments `download_count` by
exactly one and requires `download_count < max_downloads`, and over any
sequence of requests a grant starting at zero accumulates at most
`max_downloads` successful downloads. -/
theorem c4_download_grant_attempt_limited (g : DownloadGrant) (storage : StorageOutcome)
    (now : PyDateTime) (hpos : 0 < g.max_downloads) :
    (g.can_download now = false →
      accountDownloadAccessStep g storage now = (g, .forbidden) ∧
      ∀ grants : List DownloadGrant,
        (grants.find? fun x => x.token == g.token &&
          x.customer_account == g.customer_account) = some g →
        accountDownloadAccess grants g.customer_account g.token storage now =
          (grants, .forbidden))
    ∧ (∀ g' u, accountDownloadAccessStep g storage now = (g', .ok u) →
        g'.download_count = g.download_count + 1 ∧
        g.download_count < g.max_downloads)
    ∧ (∀ reqs : List (StorageOutcome × PyDateTime), g.download_count = 0 →
        (runDownloads g reqs).2 ≤ g.max_downloads ∧
        (runDownloads g reqs).1.download_count ≤ g.max_downloads) := by
  obtain ⟨hforb, hok, hother⟩ := accountDownloadAccessStep_cases g storage now
  refine ⟨?_, ?_, ?_⟩
  · intro hcant
    refine ⟨hforb hcant, ?_⟩
    intro grants hfind
    unfold accountDownloadAccess
    rw [hfind]
    dsimp only
    rw [hforb hcant]
    simp
  · intro g' u h
    obtain ⟨hcan, hcount, _, _, _⟩ := hok g' u h
    exact ⟨hcount, can_download_true_count_lt g now hpos hcan⟩
  · intro reqs h0
    obtain ⟨hmax, hcount, hbound⟩ := runDownloads_invariant reqs g hpos
    rw [h0] at hcount
    rcases hbound with hz | hb
    · rw [hz] at hcount ⊢
      constructor
      · omega
      · rw [hcount]
        omega
    · exact ⟨by omega, hb⟩

/-- Witness for C4: an active grant with `max_downloads = 2` and two
successful requests followed by a third: exactly 2 successes and a final
count of 2. -/
theorem c4_download_grant_attempt_limited_witness :
    (runDownloads
      { token := "t", customer_account := 1, order_item := 1, asset := 1,
        expires_at := none, max_downloads := 2, download_count := 0,
        last_downloaded_at := none, is_active := true }
      [(.url "a", ⟨2024, 1, 1, 0, 0, 0, 0⟩), (.url "b", ⟨2024, 1, 2, 0, 0, 0, 0⟩),
       (.url "c", ⟨2024, 1, 3, 0, 0, 0, 0⟩)]).2 ≤ 2 ∧
    (runDownloads
      { token := "t", customer_account := 1, order_item := 1, asset := 1,
        expires_at := none, max_downloads := 2, download_count := 0,
        last_downloaded_at := none, is_active := true }
      [(.url "a", ⟨2024, 1, 1, 0, 0, 0, 0⟩), (.url "b", ⟨2024, 1, 2, 0, 0, 0, 0⟩),
       (.url "c", ⟨2024, 1, 3, 0, 0, 0, 0⟩)]).1.download_count ≤ 2 :=
  (c4_download_grant_attempt_limited
    { token := "t", customer_account := 1, order_item := 1, asset := 1,
      expires_at := none, max_downloads := 2, download_count := 0,
      last_downloaded_at := none, is_active := true }
    (.url "a") ⟨2024, 1, 1, 0, 0, 0, 0⟩ (by decide)).2.2
    [(.url "a", ⟨2024, 1, 1, 0, 0, 0, 0⟩), (.url "b", ⟨2024, 1, 2, 0, 0, 0, 0⟩),
     (.url "c", ⟨2024, 1, 3, 0, 0, 0, 0⟩)] rfl

/-- C9: a grant with `max_downloads = 0` is not attempt-limited:
`can_download` ignores `download_count` entirely (it equals activity and
non-expiry for every count), and `clean` accepts `max_downloads = 0`
whenever the product consistency check passes. -/
theorem c9_download_grant_zero_unlimited (g : DownloadGrant) (now : PyDateTime)
    (h0 : g.max_downloads = 0) :
    (∀ c : Nat, DownloadGrant.can_download { g with download_count := c } now =
      (g.is_active && !(g.expired now)))
    ∧ (∀ p : Nat, DownloadGrant.clean g p p = .ok ()) := by
  constructor
  · intro c
    cases hact : g.is_active with
    | false => simp [DownloadGrant.can_download, DownloadGrant.expired, hact]
    | true =>
        cases hexp : g.expires_at with
        | none => simp [DownloadGrant.can_download, DownloadGrant.expired, hact, hexp, h0]
        | some e =>
            by_cases hle : dtLe e now = true
            · simp [DownloadGrant.can_download, DownloadGrant.expired, hact, hexp, hle, h0]
            · simp [DownloadGrant.can_download, DownloadGrant.expired, hact, hexp, h0,
                Bool.eq_false_iff.mpr hle]
  · intro p
    unfold DownloadGrant.clean
    rw [if_neg (by rw [h0]; simp), if_neg (by simp)]

/-- Witness for C9: an active, non-expiring grant with `max_downloads = 0`
still allows downloading at `download_count = 1000000`, and validates. -/
theorem c9_download_grant_zero_unlimited_witness :
    DownloadGrant.can_download
      { token := "t", customer_account := 1, order_item := 1, asset := 1,
        expires_at := none, max_downloads := 0, download_count := 1000000,
        last_downloaded_at := none, is_active := true } ⟨2030, 1, 1, 0, 0, 0, 0⟩ =
      (({ token := "t", customer_account := 1, order_item := 1, asset := 1,
          expires_at := none, max_downloads := 0, download_count := 7,
          last_downloaded_at := none, is_active := true } : DownloadGrant).is_active &&
        !(({ token := "t", customer_account := 1, order_item := 1, asset := 1,
             expires_at := none, max_downloads := 0, download_count := 7,
             last_downloaded_at := none, is_active := true } : DownloadGrant).expired
          ⟨2030, 1, 1, 0, 0, 0, 0⟩)) ∧
    DownloadGrant.clean
      { token := "t", customer_account := 1, order_item := 1, asset := 1,
        expires_at := none, max_downloads := 0, download_count := 7,
        last_downloaded_at := none, is_active := true } 5 5 = .ok () :=
  ⟨(c9_download_grant_zero_unlimited
      { token := "t", customer_account := 1, order_item := 1, asset := 1,
        expires_at := none, max_downloads := 0, download_count := 7,
        last_downloaded_at := none, is_active := true } ⟨2030, 1, 1, 0, 0, 0, 0⟩ rfl).1
    1000000,
   (c9_download_grant_zero_unlimited
      { token := "t", customer_account := 1, order_item := 1, asset := 1,
        expires_at := none, max_downloads := 0, download_count := 7,
        last_downloaded_at := none, is_active := true } ⟨2030, 1, 1, 0, 0, 0, 0⟩ rfl).2 5⟩

/-! ## api/views_modules/helpers.py: profile sync -/

/-- The columns of a `Profile` row written by `sync_profile_from_claims`. -/
structure Profile where
  clerk_user_id : String
  email : String
  first_name : String
  last_name : String
  image_url : String
  plan_tier : String
  billing_features : List String
  is_active : Bool
  metadata : List (String × JVal)
  created_at : PyDateTime
  updated_at : PyDateTime

/-- `_safe_str` from `helpers.py`: `str(value).strip() if value else ""`. -/
def _safe_str (v : JVal) : String :=
  if v.truthy then pyStrip (pyStr v) else ""

/-- Python's `a or b` on two claim values. -/
def jvalOr (a b : JVal) : JVal :=
  if a.truthy then a else b

/-- The `defaults` dict computed by `sync_profile_from_claims`, as the
record of target field values. -/
structure ProfileDefaults where
  email : String
  first_name : String
  last_name : String
  image_url : String
  plan_tier : String
  billing_features : List String
  is_active : Bool
  metadata : List (String × JVal)

/-- The `defaults` computed from the claims. -/
def profileDefaults (stgs : PySettings) (claims : PyDict) : ProfileDefaults :=
  let billing_features := extract_billing_features stgs claims none
  { email := _safe_str (dictGet claims "email"),
    first_name := _safe_str (jvalOr (dictGet claims "given_name") (dictGet claims "first_name")),
    last_name := _safe_str (jvalOr (dictGet claims "family_name") (dictGet claims "last_name")),
    image_url := _safe_str (jvalOr (dictGet claims "picture") (dictGet claims "image_url")),
    plan_tier := infer_plan_tier billing_features,
    billing_features := billing_features,
    is_active := true,
    metadata := match dictGet claims "metadata" with | .jdict kvs => kvs | _ => [] }

/-- Does the stored profile already equal the defaults field by field
(the `changed_fields` loop finds nothing)?  Python compares the metadata
dicts with `==`; the embedding compares the entry lists with `jdictBeq`. -/
def profileMatchesDefaults (p : Profile) (d : ProfileDefaults) : Bool :=
  (p.email == d.email) && (p.first_name == d.first_name) && (p.last_name == d.last_name) &&
    (p.image_url == d.image_url) && (p.plan_tier == d.plan_tier) &&
    (p.billing_features == d.billing_features) && (p.is_active == d.is_active) &&
    jdictBeq p.metadata d.metadata

/-- Apply the defaults to a stored profile and stamp `updated_at`
(`profile.save(update_fields=[*changed_fields, "updated_at"])`). -/
def applyDefaults (p : Profile) (d : ProfileDefaults) (now : PyDateTime) : Profile :=
  { p with email := d.email, first_name := d.first_name, last_name := d.last_name,
           image_url := d.image_url, plan_tier := d.plan_tier,
           billing_features := d.billing_features, is_active := d.is_active,
           metadata := d.metadata, updated_at := now }

/-- The `Profile` row created by `get_or_create` when no row with the
given `clerk_user_id` exists (`created_at`/`updated_at` are the `auto_now`
stamps). -/
def profileCreate (stgs : PySettings) (claims : PyDict) (now : PyDateTime) : Profile :=
  { clerk_user_id := _safe_str (dictGet claims "sub"),
    email := (profileDefaults stgs claims).email,
    first_name := (profileDefaults stgs claims).first_name,
    last_name := (profileDefaults stgs claims).last_name,
    image_url := (profileDefaults stgs claims).image_url,
    plan_tier := (profileDefaults stgs claims).plan_tier,
    billing_features := (profileDefaults stgs claims).billing_features,
    is_active := (profileDefaults stgs claims).is_active,
    metadata := (profileDefaults stgs claims).metadata,
    created_at := now, updated_at := now }

/-- `sync_profile_from_claims` from `helpers.py` over the profile table
(rows keyed by the unique `clerk_user_id`): `get_or_create` by the `sub`
claim, then write back only the changed fields (no save at all when
nothing changed). -/
def sync_profile_from_claims (stgs : PySettings) (profiles : List Profile)
    (claims : PyDict) (now : PyDateTime) : List Profile × Option Profile :=
  if _safe_str (dictGet claims "sub") = "" then (profiles, none)
  else
    match profiles.find? fun p => p.clerk_user_id == _safe_str (dictGet claims "sub") with
    | none =>
        (profiles ++ [profileCreate stgs claims now], some (profileCreate stgs claims now))
    | some p =>
        if profileMatchesDefaults p (profileDefaults stgs claims) then (profiles, some p)
        else
          (profiles.map fun q =>
            if q.clerk_user_id == _safe_str (dictGet claims "sub") then
              applyDefaults p (profileDefaults stgs claims) now
            else q,
           some (applyDefaults p (profileDefaults stgs claims) now))

theorem profileMatchesDefaults_applyDefaults (p : Profile) (d : ProfileDefaults)
    (now : PyDateTime) : profileMatchesDefaults (applyDefaults p d now) d = true := by
  unfold profileMatchesDefaults applyDefaults
  dsimp only
  simp [jdictBeq_refl]

theorem find?_replace (pred : Profile → Bool) (p' : Profile) (hp' : pred p' = true) :
    ∀ (l : List Profile) (x : Profile), l.find? pred = some x →
      (l.map fun q => if pred q then p' else q).find? pred = some p' := by
  intro l
  induction l with
  | nil => intro x hx; simp [List.find?] at hx
  | cons q rest ih =>
      intro x hx
      by_cases hq : pred q = true
      · simp only [List.map_cons, if_pos hq]
        rw [List.find?_cons_of_pos _ hp']
      · rw [List.find?_cons_of_neg _ hq] at hx
        simp only [List.map_cons, if_neg hq]
        rw [List.find?_cons_of_neg _ hq]
        exact ih x hx

theorem profileMatchesDefaults_create (stgs : PySettings) (claims : PyDict)
    (now : PyDateTime) :
    profileMatchesDefaults (profileCreate stgs claims now) (profileDefaults stgs claims) =
      true := by
  unfold profileMatchesDefaults profileCreate
  dsimp only
  simp [jdictBeq_refl]

/-- C5: profile sync is idempotent — for any claims dict with a non-empty
`sub` claim, a second `sync_profile_from_claims` with the same claims
changes no stored profile and returns the same profile as the first
call. -/
theorem c5_sync_profile_idempotent (stgs : PySettings) (profiles : List Profile)
    (claims : PyDict) (now1 now2 : PyDateTime)
    (hsub : _safe_str (dictGet claims "sub") ≠ "") :
    sync_profile_from_claims stgs
        (sync_profile_from_claims stgs profiles claims now1).1 claims now2 =
      sync_profile_from_claims stgs profiles claims now1 := by
  have hneg : ¬ _safe_str (dictGet claims "sub") = "" := hsub
  cases hf : profiles.find? fun p => p.clerk_user_id == _safe_str (dictGet claims "sub") with
  | none =>
      have h1 : sync_profile_from_claims stgs profiles claims now1 =
          (profiles ++ [profileCreate stgs claims now1],
           some (profileCreate stgs claims now1)) := by
        rw [sync_profile_from_claims, if_neg hneg, hf]
      rw [h1]
      have hpred : ((profileCreate stgs claims now1).clerk_user_id ==
          _safe_str (dictGet claims "sub")) = true := by
        unfold profileCreate
        exact beq_self_eq_true _
      have hf2 : ((profiles ++ [profileCreate stgs claims now1]).find? fun p =>
          p.clerk_user_id == _safe_str (dictGet claims "sub")) =
          some (profileCreate stgs claims now1) := by
        rw [List.find?_append, hf, Option.none_or]
        rw [List.find?_cons_of_pos
          (p := fun q : Profile => q.clerk_user_id == _safe_str (dictGet claims "sub")) _ hpred]
      rw [sync_profile_from_claims, if_neg hneg, hf2]
      dsimp only
      rw [if_pos (profileMatchesDefaults_create stgs claims now1)]
  | some p0 =>
      by_cases hmatch : profileMatchesDefaults p0 (profileDefaults stgs claims) = true
      · have h1 : sync_profile_from_claims stgs profiles claims now1 = (profiles, some p0) := by
          rw [sync_profile_from_claims, if_neg hneg, hf]
          dsimp only
          rw [if_pos hmatch]
        rw [h1]
        rw [sync_profile_from_claims, if_neg hneg, hf]
        dsimp only
        rw [if_pos hmatch]
      · have h1 : sync_profile_from_claims stgs profiles claims now1 =
            (profiles.map fun q =>
              if q.clerk_user_id == _safe_str (dictGet claims "sub") then
                applyDefaults p0 (profileDefaults stgs claims) now1
              else q,
             some (applyDefaults p0 (profileDefaults stgs claims) now1)) := by
          rw [sync_profile_from_claims, if_neg hneg, hf]
          dsimp only
          rw [if_neg hmatch]
        rw [h1]
        have hpred0 : (p0.clerk_user_id == _safe_str (dictGet claims "sub")) = true := by
          have h := List.find?_some hf
          simpa using h
        have hpred1 : ((applyDefaults p0 (profileDefaults stgs claims) now1).clerk_user_id ==
            _safe_str (dictGet claims "sub")) = true := by
          unfold applyDefaults
          exact hpred0
        have hf2 := find?_replace
          (fun p => p.clerk_user_id == _safe_str (dictGet claims "sub"))
          (applyDefaults p0 (profileDefaults stgs claims) now1) hpred1 profiles p0 hf
        rw [sync_profile_from_claims, if_neg hneg, hf2]
        dsimp only
        rw [if_pos (profileMatchesDefaults_applyDefaults p0 (profileDefaults stgs claims) now1)]

/-- Witness for C5 on a concrete claims dict with `sub = "user_1"`. -/
theorem c5_sync_profile_idempotent_witness :
    sync_profile_from_claims {} (sync_profile_from_claims {} []
        [("sub", .jstr "user_1"), ("email", .jstr "a@b.co"),
         ("entitlements", .jlist [.jstr "Pro"])] ⟨2024, 1, 1, 0, 0, 0, 0⟩).1
      [("sub", .jstr "user_1"), ("email", .jstr "a@b.co"),
       ("entitlements", .jlist [.jstr "Pro"])] ⟨2024, 2, 2, 0, 0, 0, 0⟩ =
    sync_profile_from_claims {} []
      [("sub", .jstr "user_1"), ("email", .jstr "a@b.co"),
       ("entitlements", .jlist [.jstr "Pro"])] ⟨2024, 1, 1, 0, 0, 0, 0⟩ :=
  c5_sync_profile_idempotent {} []
    [("sub", .jstr "user_1"), ("email", .jstr "a@b.co"),
     ("entitlements", .jlist [.jstr "Pro"])] ⟨2024, 1, 1, 0, 0, 0, 0⟩
    ⟨2024, 2, 2, 0, 0, 0, 0⟩ (by
      have h : dictGet [("sub", .jstr "user_1"), ("email", .jstr "a@b.co"),
          ("entitlements", .jlist [.jstr "Pro"])] "sub" = JVal.jstr "user_1" := rfl
      unfold _safe_str
      rw [h, if_pos (by decide)]
      simp only [pyStr]
      decide)

/-! ## api/webhooks/receiver.py: ClerkWebhookView -/

/-- `WebhookEvent.Status` choices. -/
inductive WebhookStatus where
  | received
  | processed
  | failed
  | ignored
  deriving Repr, DecidableEq, Inhabited

/-- The columns of a `WebhookEvent` row; the parsed JSON payload is
embedded as its source string. -/
structure WebhookEventRow where
  provider : String
  event_id : String
  event_type : String
  payload : String
  status : WebhookStatus
  error_message : String
  processed_at : Option PyDateTime
  deriving Repr, DecidableEq, Inhabited

/-- The `(provider, event_id)` lookup key of the Clerk webhook dedup
(`provider=WebhookEvent.Provider.CLERK`). -/
def webhookKey (eid : String) (r : WebhookEventRow) : Bool :=
  r.provider == "clerk" && r.event_id == eid

/-- The `UniqueConstraint(fields=("provider", "event_id"))` of the
`WebhookEvent` table: no two rows share the provider+event_id pair. -/
def webhookUnique (table : List WebhookEventRow) : Prop :=
  table.Pairwise fun r1 r2 => ¬(r1.provider = r2.provider ∧ r1.event_id = r2.event_id)

/-- Update every row with the given key (`webhook_event.save(...)` on the
unique row). -/
def updateWebhookRow (table : List WebhookEventRow) (eid : String)
    (f : WebhookEventRow → WebhookEventRow) : List WebhookEventRow :=
  table.map fun r => if webhookKey eid r then f r else r

/-- The JSON responses of `ClerkWebhookView.post`. -/
inductive WebhookResponse where
  | okResp (deduplicated : Bool)
  | errorResp (status : Nat)
  deriving Repr, DecidableEq, Inhabited

/-- Mark the stored row processed after a successful handler run. -/
def webhookMarkProcessed (now : PyDateTime) (x : WebhookEventRow) : WebhookEventRow :=
  { x with status := .processed, processed_at := some now, error_message := "" }

/-- Mark the stored row failed with the exception text. -/
def webhookMarkFailed (excMsg : String) (now : PyDateTime) (x : WebhookEventRow) :
    WebhookEventRow :=
  { x with status := .failed, processed_at := some now, error_message := excMsg }

/-- Mark the stored row ignored when no handler is registered. -/
def webhookMarkIgnored (now : PyDateTime) (x : WebhookEventRow) : WebhookEventRow :=
  { x with status := .ignored, processed_at := some now, error_message := "" }

/-- The handler phase of `ClerkWebhookView.post`: run the registered
handler when one exists and record the outcome on the stored row
(`hasRow` is `webhook_event is not None`); the third component reports
whether a handler was invoked. -/
def webhookHandlerPhase (handlers : List String) (outcome : String → Bool)
    (event_id event_type excMsg : String) (now : PyDateTime)
    (table : List WebhookEventRow) (hasRow : Bool) :
    List WebhookEventRow × WebhookResponse × Bool :=
  if handlers.contains event_type then
    if outcome event_type then
      ((if hasRow then updateWebhookRow table event_id (webhookMarkProcessed now)
        else table), .okResp false, true)
    else
      ((if hasRow then updateWebhookRow table event_id (webhookMarkFailed excMsg now)
        else table), .errorResp 500, true)
  else
    ((if hasRow then updateWebhookRow table event_id (webhookMarkIgnored now)
      else table), .okResp false, false)

/-- The metadata refresh applied when the stored row's type or payload
differs from the incoming event. -/
def webhookRefreshRow (event_type payload : String) (x : WebhookEventRow) :
    WebhookEventRow :=
  { x with event_type := if event_type = "" then x.event_type else event_type,
           payload := payload, status := .received, error_message := "" }

/-- The event id used for deduplication: the `svix-id` header or the
event's `id`, stripped. -/
def webhookEventId (svix_id body_event_id : String) : String :=
  pyStrip (if svix_id = "" then body_event_id else svix_id)

/-- The fresh `WebhookEvent` row created by `get_or_create`'s defaults. -/
def webhookNewRow (event_id event_type payload : String) : WebhookEventRow :=
  { provider := "clerk", event_id := event_id,
    event_type := if event_type = "" then "unknown" else event_type,
    payload := payload, status := .received, error_message := "",
    processed_at := none }

/-- `ClerkWebhookView.post` after successful Svix verification: the table
is deduplicated per (clerk, event_id), and the handler phase records the
outcome. `outcome ty = true` means the handler for `ty` returned without
raising; `excMsg` is the text of the exception otherwise. -/
def clerkWebhookPost (handlers : List String) (outcome : String → Bool)
    (table : List WebhookEventRow) (svix_id body_event_id raw_type payload excMsg : String)
    (now : PyDateTime) : List WebhookEventRow × WebhookResponse × Bool :=
  if webhookEventId svix_id body_event_id = "" then
    webhookHandlerPhase handlers outcome (webhookEventId svix_id body_event_id)
      (pyStrip raw_type) excMsg now table false
  else
    match table.find? (webhookKey (webhookEventId svix_id body_event_id)) with
    | none =>
        let newRow := webhookNewRow (webhookEventId svix_id body_event_id)
          (pyStrip raw_type) payload
        let table1 := table ++ [newRow]
        let table2 :=
          if newRow.event_type ≠ pyStrip raw_type ∨ newRow.payload ≠ payload then
            updateWebhookRow table1 (webhookEventId svix_id body_event_id)
              (webhookRefreshRow (pyStrip raw_type) payload)
          else table1
        webhookHandlerPhase handlers outcome (webhookEventId svix_id body_event_id)
          (pyStrip raw_type) excMsg now table2 true
    | some r =>
        if r.status = .processed ∨ r.status = .ignored then
          (table, .okResp true, false)
        else
          let table1 :=
            if r.event_type ≠ pyStrip raw_type ∨ r.payload ≠ payload then
              updateWebhookRow table (webhookEventId svix_id body_event_id)
                (webhookRefreshRow (pyStrip raw_type) payload)
            else table
          webhookHandlerPhase handlers outcome (webhookEventId svix_id body_event_id)
            (pyStrip raw_type) excMsg now table1 true

theorem webhookUnique_update (f : WebhookEventRow → WebhookEventRow)
    (hf : ∀ r, (f r).provider = r.provider ∧ (f r).event_id = r.event_id)
    (eid : String) (t : List WebhookEventRow) (hu : webhookUnique t) :
    webhookUnique (updateWebhookRow t eid f) := by
  unfold webhookUnique updateWebhookRow
  refine List.Pairwise.map _ ?_ hu
  intro a b hab ⟨hp, he⟩
  apply hab
  constructor
  · by_cases ha : webhookKey eid a = true
    · rw [if_pos ha] at hp
      by_cases hb : webhookKey eid b = true
      · rw [if_pos hb] at hp
        rw [← (hf a).1, ← (hf b).1, hp]
      · rw [if_neg hb] at hp
        rw [← (hf a).1, hp]
    · rw [if_neg ha] at hp
      by_cases hb : webhookKey eid b = true
      · rw [if_pos hb] at hp
        rw [hp, (hf b).1]
      · rw [if_neg hb] at hp
        exact hp
  · by_cases ha : webhookKey eid a = true
    · rw [if_pos ha] at he
      by_cases hb : webhookKey eid b = true
      · rw [if_pos hb] at he
        rw [← (hf a).2, ← (hf b).2, he]
      · rw [if_neg hb] at he
        rw [← (hf a).2, he]
    · rw [if_neg ha] at he
      by_cases hb : webhookKey eid b = true
      · rw [if_pos hb] at he
        rw [he, (hf b).2]
      · rw [if_neg hb] at he
        exact he

theorem webhookUnique_append_new (t : List WebhookEventRow) (newRow : WebhookEventRow)
    (hu : webhookUnique t)
    (hnone : t.find? (webhookKey newRow.event_id) = none)
    (hprov : newRow.provider = "clerk") :
    webhookUnique (t ++ [newRow]) := by
  unfold webhookUnique
  rw [List.pairwise_append]
  refine ⟨hu, List.pairwise_singleton _ _, ?_⟩
  intro a ha b hb ⟨hp, he⟩
  rw [List.mem_singleton] at hb
  subst hb
  have := List.find?_eq_none.mp hnone a ha
  apply this
  unfold webhookKey
  rw [hp, hprov, he]
  simp

theorem find?_updateWebhookRow (eid : String) (f : WebhookEventRow → WebhookEventRow)
    (hf : ∀ r, webhookKey eid (f r) = webhookKey eid r) :
    ∀ t : List WebhookEventRow,
      (updateWebhookRow t eid f).find? (webhookKey eid) =
        (t.find? (webhookKey eid)).map f := by
  intro t
  induction t with
  | nil => rfl
  | cons r rest ih =>
      unfold updateWebhookRow
      by_cases hr : webhookKey eid r = true
      · simp only [List.map_cons, if_pos hr]
        rw [List.find?_cons_of_pos _ (by rw [hf r]; exact hr),
          List.find?_cons_of_pos _ hr]
        rfl
      · simp only [List.map_cons, if_neg hr]
        rw [List.find?_cons_of_neg _ hr, List.find?_cons_of_neg _ hr]
        exact ih

theorem webhookRefreshRow_key (event_type payload eid : String) :
    ∀ r, webhookKey eid (webhookRefreshRow event_type payload r) = webhookKey eid r :=
  fun _ => rfl

theorem webhookHandlerPhase_unique (handlers : List String) (outcome : String → Bool)
    (event_id event_type excMsg : String) (now : PyDateTime)
    (table : List WebhookEventRow) (hasRow : Bool) (hu : webhookUnique table) :
    webhookUnique (webhookHandlerPhase handlers outcome event_id event_type excMsg now
      table hasRow).1 := by
  unfold webhookHandlerPhase
  by_cases hc : handlers.contains event_type = true
  · rw [if_pos hc]
    by_cases ho : outcome event_type = true
    · rw [if_pos ho]
      cases hasRow with
      | true =>
          dsimp only
          rw [if_pos rfl]
          refine webhookUnique_update _ ?_ _ _ hu
          exact fun r => ⟨rfl, rfl⟩
      | false =>
          dsimp only
          rw [if_neg (by simp)]
          exact hu
    · rw [if_neg ho]
      cases hasRow with
      | true =>
          dsimp only
          rw [if_pos rfl]
          refine webhookUnique_update _ ?_ _ _ hu
          exact fun r => ⟨rfl, rfl⟩
      | false =>
          dsimp only
          rw [if_neg (by simp)]
          exact hu
  · rw [if_neg hc]
    cases hasRow with
    | true =>
        dsimp only
        rw [if_pos rfl]
        refine webhookUnique_update _ ?_ _ _ hu
        exact fun r => ⟨rfl, rfl⟩
    | false =>
        dsimp only
        rw [if_neg (by simp)]
        exact hu

theorem webhookHandlerPhase_marks (handlers : List String) (outcome : String → Bool)
    (event_id event_type excMsg : String) (now : PyDateTime)
    (table : List WebhookEventRow) (r : WebhookEventRow)
    (hfind : table.find? (webhookKey event_id) = some r)
    (hok : handlers.contains event_type = true → outcome event_type = true) :
    ∃ r', (webhookHandlerPhase handlers outcome event_id event_type excMsg now
        table true).1.find? (webhookKey event_id) = some r' ∧
      (r'.status = .processed ∨ r'.status = .ignored) := by
  unfold webhookHandlerPhase
  by_cases hc : handlers.contains event_type = true
  · rw [if_pos hc, if_pos (hok hc)]
    dsimp only
    rw [if_pos rfl]
    rw [find?_updateWebhookRow event_id (webhookMarkProcessed now) (fun _ => rfl), hfind]
    exact ⟨_, rfl, Or.inl rfl⟩
  · rw [if_neg hc]
    dsimp only
    rw [if_pos rfl]
    rw [find?_updateWebhookRow event_id (webhookMarkIgnored now) (fun _ => rfl), hfind]
    exact ⟨_, rfl, Or.inr rfl⟩

theorem clerkWebhookPost_eq_found (handlers : List String) (outcome : String → Bool)
    (table : List WebhookEventRow) (svix_id body_event_id raw_type payload excMsg : String)
    (now : PyDateTime) (r : WebhookEventRow)
    (heid : ¬ webhookEventId svix_id body_event_id = "")
    (hf : table.find? (webhookKey (webhookEventId svix_id body_event_id)) = some r) :
    clerkWebhookPost handlers outcome table svix_id body_event_id raw_type payload
      excMsg now =
    (if r.status = .processed ∨ r.status = .ignored then
      (table, .okResp true, false)
    else
      webhookHandlerPhase handlers outcome (webhookEventId svix_id body_event_id)
        (pyStrip raw_type) excMsg now
        (if r.event_type ≠ pyStrip raw_type ∨ r.payload ≠ payload then
          updateWebhookRow table (webhookEventId svix_id body_event_id)
            (webhookRefreshRow (pyStrip raw_type) payload)
        else table) true) := by
  rw [clerkWebhookPost, if_neg heid, hf]

theorem clerkWebhookPost_eq_new (handlers : List String) (outcome : String → Bool)
    (table : List WebhookEventRow) (svix_id body_event_id raw_type payload excMsg : String)
    (now : PyDateTime)
    (heid : ¬ webhookEventId svix_id body_event_id = "")
    (hf : table.find? (webhookKey (webhookEventId svix_id body_event_id)) = none) :
    clerkWebhookPost handlers outcome table svix_id body_event_id raw_type payload
      excMsg now =
    webhookHandlerPhase handlers outcome (webhookEventId svix_id body_event_id)
      (pyStrip raw_type) excMsg now
      (if (webhookNewRow (webhookEventId svix_id body_event_id)
            (pyStrip raw_type) payload).event_type ≠ pyStrip raw_type ∨
          (webhookNewRow (webhookEventId svix_id body_event_id)
            (pyStrip raw_type) payload).payload ≠ payload then
        updateWebhookRow
          (table ++ [webhookNewRow (webhookEventId svix_id body_event_id)
            (pyStrip raw_type) payload])
          (webhookEventId svix_id body_event_id)
          (webhookRefreshRow (pyStrip raw_type) payload)
      else
        table ++ [webhookNewRow (webhookEventId svix_id body_event_id)
          (pyStrip raw_type) payload]) true := by
  rw [clerkWebhookPost, if_neg heid, hf]

theorem clerkWebhookPost_marks (handlers : List String) (outcome : String → Bool)
    (table : List WebhookEventRow) (svix_id body_event_id raw_type payload excMsg : String)
    (now : PyDateTime)
    (heid : webhookEventId svix_id body_event_id ≠ "")
    (hok : handlers.contains (pyStrip raw_type) = true → outcome (pyStrip raw_type) = true) :
    ∃ r', (clerkWebhookPost handlers outcome table svix_id body_event_id raw_type payload
        excMsg now).1.find? (webhookKey (webhookEventId svix_id body_event_id)) = some r' ∧
      (r'.status = .processed ∨ r'.status = .ignored) := by
  cases hf : table.find? (webhookKey (webhookEventId svix_id body_event_id)) with
  | none =>
      rw [clerkWebhookPost_eq_new handlers outcome table svix_id body_event_id raw_type
        payload excMsg now heid hf]
      have hkey : webhookKey (webhookEventId svix_id body_event_id)
          (webhookNewRow (webhookEventId svix_id body_event_id) (pyStrip raw_type) payload) =
          true := by
        unfold webhookKey webhookNewRow
        simp
      have hfind1 : (table ++ [webhookNewRow (webhookEventId svix_id body_event_id)
          (pyStrip raw_type) payload]).find?
          (webhookKey (webhookEventId svix_id body_event_id)) =
          some (webhookNewRow (webhookEventId svix_id body_event_id)
            (pyStrip raw_type) payload) := by
        rw [List.find?_append, hf, Option.none_or,
          List.find?_cons_of_pos _ hkey]
      by_cases hcond : (webhookNewRow (webhookEventId svix_id body_event_id)
          (pyStrip raw_type) payload).event_type ≠ pyStrip raw_type ∨
          (webhookNewRow (webhookEventId svix_id body_event_id)
            (pyStrip raw_type) payload).payload ≠ payload
      · rw [if_pos hcond]
        have hfind2 := find?_updateWebhookRow (webhookEventId svix_id body_event_id)
          (webhookRefreshRow (pyStrip raw_type) payload)
          (webhookRefreshRow_key (pyStrip raw_type) payload _)
          (table ++ [webhookNewRow (webhookEventId svix_id body_event_id)
            (pyStrip raw_type) payload])
        rw [hfind1] at hfind2
        exact webhookHandlerPhase_marks _ _ _ _ _ _ _ _ hfind2 hok
      · rw [if_neg hcond]
        exact webhookHandlerPhase_marks _ _ _ _ _ _ _ _ hfind1 hok
  | some r =>
      rw [clerkWebhookPost_eq_found handlers outcome table svix_id body_event_id raw_type
        payload excMsg now r heid hf]
      by_cases hstat : r.status = .processed ∨ r.status = .ignored
      · rw [if_pos hstat]
        exact ⟨r, hf, hstat⟩
      · rw [if_neg hstat]
        by_cases hcond : r.event_type ≠ pyStrip raw_type ∨ r.payload ≠ payload
        · rw [if_pos hcond]
          have hfind2 := find?_updateWebhookRow (webhookEventId svix_id body_event_id)
            (webhookRefreshRow (pyStrip raw_type) payload)
            (webhookRefreshRow_key (pyStrip raw_type) payload _) table
          rw [hf] at hfind2
          exact webhookHandlerPhase_marks _ _ _ _ _ _ _ _ hfind2 hok
        · rw [if_neg hcond]
          exact webhookHandlerPhase_marks _ _ _ _ _ _ _ _ hf hok

theorem clerkWebhookPost_unique (handlers : List String) (outcome : String → Bool)
    (table : List WebhookEventRow) (svix_id body_event_id raw_type payload excMsg : String)
    (now : PyDateTime) (hu : webhookUnique table) :
    webhookUnique (clerkWebhookPost handlers outcome table svix_id body_event_id raw_type
      payload excMsg now).1 := by
  by_cases heid : webhookEventId svix_id body_event_id = ""
  · rw [clerkWebhookPost, if_pos heid]
    exact webhookHandlerPhase_unique _ _ _ _ _ _ _ _ hu
  · cases hf : table.find? (webhookKey (webhookEventId svix_id body_event_id)) with
    | none =>
        rw [clerkWebhookPost_eq_new handlers outcome table svix_id body_event_id raw_type
          payload excMsg now heid hf]
        have hu1 : webhookUnique (table ++ [webhookNewRow
            (webhookEventId svix_id body_event_id) (pyStrip raw_type) payload]) :=
          webhookUnique_append_new table _ hu hf rfl
        by_cases hcond : (webhookNewRow (webhookEventId svix_id body_event_id)
            (pyStrip raw_type) payload).event_type ≠ pyStrip raw_type ∨
            (webhookNewRow (webhookEventId svix_id body_event_id)
              (pyStrip raw_type) payload).payload ≠ payload
        · rw [if_pos hcond]
          refine webhookHandlerPhase_unique _ _ _ _ _ _ _ _ ?_
          refine webhookUnique_update _ ?_ _ _ hu1
          exact fun r => ⟨rfl, rfl⟩
        · rw [if_neg hcond]
          exact webhookHandlerPhase_unique _ _ _ _ _ _ _ _ hu1
    | some r =>
        rw [clerkWebhookPost_eq_found handlers outcome table svix_id body_event_id raw_type
          payload excMsg now r heid hf]
        by_cases hstat : r.status = .processed ∨ r.status = .ignored
        · rw [if_pos hstat]
          exact hu
        · rw [if_neg hstat]
          by_cases hcond : r.event_type ≠ pyStrip raw_type ∨ r.payload ≠ payload
          · rw [if_pos hcond]
            refine webhookHandlerPhase_unique _ _ _ _ _ _ _ _ ?_
            refine webhookUnique_update _ ?_ _ _ hu
            exact fun r => ⟨rfl, rfl⟩
          · rw [if_neg hcond]
            exact webhookHandlerPhase_unique _ _ _ _ _ _ _ _ hu

/-- C1: webhook ingestion is idempotent per (provider, event_id). The
embedded `WebhookEvent` table keeps the (provider, event_id) pair unique
across any post; a POST whose stored event already has status processed
or ignored returns the deduplicated OK response, invokes no handler and
changes no state; and when the first POST's handler succeeds (or no
handler is registered), a second POST of the same event returns the
deduplicated OK response and leaves the state exactly as after the first
POST. -/
theorem c1_webhook_idempotent (handlers : List String) (outcome : String → Bool)
    (table : List WebhookEventRow)
    (svix_id body_event_id raw_type payload excMsg excMsg2 : String)
    (now now2 : PyDateTime) (hu : webhookUnique table) :
    webhookUnique (clerkWebhookPost handlers outcome table svix_id body_event_id raw_type
      payload excMsg now).1
    ∧ (∀ r, webhookEventId svix_id body_event_id ≠ "" →
        table.find? (webhookKey (webhookEventId svix_id body_event_id)) = some r →
        (r.status = .processed ∨ r.status = .ignored) →
        clerkWebhookPost handlers outcome table svix_id body_event_id raw_type payload
          excMsg now = (table, .okResp true, false))
    ∧ (webhookEventId svix_id body_event_id ≠ "" →
        (handlers.contains (pyStrip raw_type) = true →
          outcome (pyStrip raw_type) = true) →
        clerkWebhookPost handlers outcome
            (clerkWebhookPost handlers outcome table svix_id body_event_id raw_type
              payload excMsg now).1
            svix_id body_event_id raw_type payload excMsg2 now2 =
          ((clerkWebhookPost handlers outcome table svix_id body_event_id raw_type
              payload excMsg now).1, .okResp true, false)) := by
  refine ⟨clerkWebhookPost_unique handlers outcome table svix_id body_event_id raw_type
    payload excMsg now hu, ?_, ?_⟩
  · intro r heid hf hstat
    rw [clerkWebhookPost_eq_found handlers outcome table svix_id body_event_id raw_type
      payload excMsg now r heid hf, if_pos hstat]
  · intro heid hok
    obtain ⟨r', hr', hstat'⟩ := clerkWebhookPost_marks handlers outcome table svix_id
      body_event_id raw_type payload excMsg now heid hok
    rw [clerkWebhookPost_eq_found handlers outcome _ svix_id body_event_id raw_type
      payload excMsg2 now2 r' heid hr', if_pos hstat']

/-- Witness for C1 at a concrete table and event: a second POST of a
Clerk event whose first POST was processed is deduplicated. -/
theorem c1_webhook_idempotent_witness :
    clerkWebhookPost ["user.created"] (fun _ => true)
        (clerkWebhookPost ["user.created"] (fun _ => true) [] "evt_1" "" "user.created"
          "BODY" "" ⟨2024, 1, 1, 0, 0, 0, 0⟩).1
        "evt_1" "" "user.created" "BODY" "" ⟨2024, 1, 1, 0, 5, 0, 0⟩ =
      ((clerkWebhookPost ["user.created"] (fun _ => true) [] "evt_1" "" "user.created"
          "BODY" "" ⟨2024, 1, 1, 0, 0, 0, 0⟩).1, .okResp true, false) :=
  (c1_webhook_idempotent ["user.created"] (fun _ => true) [] "evt_1" "" "user.created"
    "BODY" "" "" ⟨2024, 1, 1, 0, 0, 0, 0⟩ ⟨2024, 1, 1, 0, 5, 0, 0⟩
    (List.Pairwise.nil)).2.2 (by decide) (fun _ => rfl)

/-! ## api/views_modules/account.py: order confirmation and fulfillment

The products, prices and items are embedded as read-only records (the
flow never writes them); the tables written by the flow live in
`CommerceState`. `fresh` is the generator counter standing for `uuid4()`
tokens and new primary keys. Model validation (`full_clean`) of the rows
created here is embedded where it depends on the caller's data —
`Order.save` and the `Entitlement` feature-key requirement — and omitted
for the rows whose validity is forced by construction (pending assets
have non-empty titles and paths, fulfillment orders link matching
products, subscription periods are start + 30/365 days). -/

/-- `ServiceOffer` columns read during fulfillment. -/
structure ServiceOfferRow where
  delivery_days : Nat
  metadata : PyDict

/-- `Product` columns read during fulfillment. -/
structure ProductRow where
  id : Nat
  name : String
  product_type : String
  feature_keys : JVal
  service_offer : Option ServiceOfferRow

/-- `Price` columns read during confirmation. -/
structure PriceRow where
  id : Nat
  product : Nat
  name : String
  billing_period : String

/-- `OrderItem` columns read during confirmation and fulfillment. -/
structure OrderItemRow where
  id : Nat
  product : ProductRow
  price : Option PriceRow
  quantity : Nat
  product_name_snapshot : String

/-- `DigitalAsset` columns used by the flow. -/
structure DigitalAssetRow where
  id : Nat
  product : Nat
  title : String
  file_path : String
  version_label : String
  is_active : Bool
  metadata : PyDict

/-- `Entitlement` columns written by fulfillment; the
`{"order_item_id": item.id}` metadata is kept as a field. -/
structure EntitlementRow where
  customer_account : Nat
  feature_key : String
  source_type : String
  source_reference : String
  starts_at : PyDateTime
  is_active : Bool
  order_item_id : Nat

/-- `FulfillmentOrder` columns written by fulfillment; the metadata keys
are kept as fields. -/
structure FulfillmentOrderRow where
  customer_account : Nat
  order_item : Nat
  product : Nat
  status : String
  delivery_mode : String
  customer_request : String
  due_at : Option PyDateTime
  download_grant : Option String
  order_public_id : String
  order_item_id : Nat
  sequence : Nat

/-- `PaymentTransaction` columns written by confirmation (`order` is the
order's public id). -/
structure PaymentTransactionRow where
  order : Option String
  subscription : Option Nat
  provider : String
  external_id : String
  status : String
  amount_cents : Nat
  currency : String
  raw_payload : JVal

/-- `Subscription` columns written by confirmation; the metadata keys are
kept as fields. -/
structure CommerceSubscription where
  customer_account : Nat
  product : Option Nat
  price : Option Nat
  status : String
  clerk_subscription_id : Option String
  current_period_start : Option PyDateTime
  current_period_end : Option PyDateTime
  order_public_id : String
  order_item_id : Nat
  quantity : Nat

/-- The tables written by order confirmation and fulfillment, plus the
sent transactional emails and the fresh-id counter. -/
structure CommerceState where
  entitlements : List EntitlementRow
  assets : List DigitalAssetRow
  download_grants : List DownloadGrant
  fulfillments : List FulfillmentOrderRow
  transactions : List PaymentTransactionRow
  subscriptions : List CommerceSubscription
  emails : List String
  fresh : Nat

/-- Add one calendar day (used to embed `timedelta(days=n)`). -/
def addOneDay (d : PyDateTime) : PyDateTime :=
  if d.day < monthrangeDays d.year d.month then { d with day := d.day + 1 }
  else if d.month < 12 then { d with day := 1, month := d.month + 1 }
  else { d with day := 1, month := 1, year := d.year + 1 }

/-- `d + timedelta(days=n)`. -/
def addDays (d : PyDateTime) : Nat → PyDateTime
  | 0 => d
  | n + 1 => addDays (addOneDay d) n

/-- `_billing_period_end` from `account.py`. -/
def _billing_period_end (start_at : PyDateTime) (billing_period : String) :
    Option PyDateTime :=
  if billing_period = "monthly" then some (addDays start_at 30)
  else if billing_period = "yearly" then some (addDays start_at 365)
  else none

/-- `_resolve_service_delivery_mode` from `account.py`. -/
def _resolve_service_delivery_mode (item : OrderItemRow) : String :=
  match item.product.service_offer with
  | none => "downloadable"
  | some so =>
      let raw := pyLower (pyStrip (pyStr (jvalOr (dictGet so.metadata "delivery_mode")
        (jvalOr (dictGet so.metadata "fulfillment_delivery_mode") (.jstr "")))))
      if raw = "physical" ∨ raw = "shipped" ∨ raw = "physical_shipped" then
        "physical_shipped"
      else "downloadable"

/-- The feature-key list of a product
(`product.feature_keys if isinstance(..., list) else []`). -/
def productFeatureKeys (p : ProductRow) : List JVal :=
  match p.feature_keys with
  | .jlist xs => xs
  | _ => []

/-- `item.quantity or 1`. -/
def itemQuantity (item : OrderItemRow) : Nat :=
  if item.quantity = 0 then 1 else item.quantity

/-- One `Entitlement.objects.get_or_create` call of the fulfillment loop;
`Entitlement.clean` normalizes spaces to underscores on create and
rejects an empty key. -/
def createEntitlement (account : Nat) (orderRef : String) (now : PyDateTime)
    (itemId : Nat) (st : CommerceState) (f : JVal) : Except String CommerceState :=
  let key0 := pyLower (pyStrip (pyStr f))
  if st.entitlements.any fun e =>
      e.customer_account == account && e.feature_key == key0 &&
        e.source_type == "purchase" && e.source_reference == orderRef then
    .ok st
  else
    let stored := key0.replace " " "_"
    if stored = "" then .error "Feature key is required."
    else
      .ok { st with entitlements := st.entitlements ++
        [{ customer_account := account, feature_key := stored, source_type := "purchase",
           source_reference := orderRef, starts_at := now, is_active := true,
           order_item_id := itemId }] }

/-- The entitlement loop of one item. -/
def entitlementsForItem (account : Nat) (orderRef : String) (now : PyDateTime)
    (itemId : Nat) (st : CommerceState) : List JVal → Except String CommerceState
  | [] => .ok st
  | f :: rest =>
      match createEntitlement account orderRef now itemId st f with
      | .error e => .error e
      | .ok st1 => entitlementsForItem account orderRef now itemId st1 rest

/-- Does the grant's asset carry `metadata.pending_fulfillment = True`
(the `asset__metadata__pending_fulfillment=True` lookup)? -/
def assetHasPendingFlag (st : CommerceState) (assetId : Nat) : Bool :=
  match st.assets.find? fun a => a.id == assetId with
  | some a =>
      match dictGet a.metadata "pending_fulfillment" with
      | .jbool b => b
      | _ => false
  | none => false

/-- `_create_pending_download_grant` from `account.py`: create an inactive
placeholder asset and an inactive grant pointing at it. -/
def createPendingGrant (order : Order) (item : OrderItemRow) (sequence : Nat)
    (reason : String) (st : CommerceState) : CommerceState × DownloadGrant :=
  let safe_order_id := order.public_id
  let base_name :=
    if item.product_name_snapshot ≠ "" then item.product_name_snapshot
    else if item.product.name ≠ "" then item.product.name
    else "Custom deliverable"
  let safe_product_name := pyStrip base_name
  let assetId := st.fresh
  let asset : DigitalAssetRow :=
    { id := assetId, product := item.product.id,
      title := safe_product_name ++ " deliverable #" ++ toString sequence,
      file_path := "pending/fulfillment/" ++ safe_order_id ++ "/" ++ toString item.id ++
        "-" ++ toString sequence ++ ".pending",
      version_label := "pending", is_active := false,
      metadata := [("pending_fulfillment", .jbool true), ("pending_reason", .jstr reason),
        ("order_public_id", .jstr safe_order_id), ("order_item_id", .jnum item.id),
        ("sequence", .jnum sequence)] }
  let grant : DownloadGrant :=
    { token := toString (st.fresh + 1), customer_account := order.customer_account,
      order_item := item.id, asset := assetId, expires_at := none, max_downloads := 5,
      download_count := 0, last_downloaded_at := none, is_active := false }
  ({ st with assets := st.assets ++ [asset],
             download_grants := st.download_grants ++ [grant], fresh := st.fresh + 2 },
   grant)

/-- The digital branch of the fulfillment loop: one grant per active
asset, or pending placeholder grants when the product has none. -/
def digitalStep (order : Order) (item : OrderItemRow)
    (st : CommerceState) : CommerceState :=
  if item.product.product_type = "digital" then
    let active_assets := st.assets.filter fun a =>
      a.product == item.product.id && a.is_active
    if active_assets.isEmpty then
      let existing_pending := (st.download_grants.filter fun g =>
        g.customer_account == order.customer_account && g.order_item == item.id &&
          assetHasPendingFlag st g.asset).length
      let needed := itemQuantity item - existing_pending
      (List.range needed).foldl
        (fun st1 offset =>
          (createPendingGrant order item (existing_pending + offset + 1)
            "missing_digital_asset" st1).1)
        st
    else
      active_assets.foldl
        (fun st1 asset =>
          if st1.download_grants.any fun g =>
              g.customer_account == order.customer_account &&
                g.order_item == item.id && g.asset == asset.id then
            st1
          else
            { st1 with
                download_grants := st1.download_grants ++
                  [{ token := toString st1.fresh,
                     customer_account := order.customer_account,
                     order_item := item.id, asset := asset.id, expires_at := none,
                     max_downloads := 5, download_count := 0, last_downloaded_at := none,
                     is_active := true }],
                fresh := st1.fresh + 1 })
        st
  else st

/-- The service branch of the fulfillment loop: one fulfillment order per
remaining unit, with a pending download grant in downloadable mode and a
requested-email per created order. -/
def serviceStep (order : Order) (now : PyDateTime) (item : OrderItemRow)
    (st : CommerceState) : CommerceState :=
  if item.product.product_type = "service" then
    let existing_count := (st.fulfillments.filter fun f => f.order_item == item.id).length
    let delivery_mode := _resolve_service_delivery_mode item
    let delivery_days :=
      match item.product.service_offer with
      | some so => so.delivery_days
      | none => 0
    let due_at := if delivery_days > 0 then some (addDays now delivery_days) else none
    let needed := itemQuantity item - existing_count
    (List.range needed).foldl
      (fun st1 offset =>
        let sequence := existing_count + offset + 1
        let stg :=
          if delivery_mode = "downloadable" then
            let r := createPendingGrant order item sequence "service_fulfillment" st1
            (r.1, some r.2.token)
          else (st1, none)
        { stg.1 with
            fulfillments := stg.1.fulfillments ++
              [{ customer_account := order.customer_account, order_item := item.id,
                 product := item.product.id, status := "requested",
                 delivery_mode := delivery_mode, customer_request := order.notes,
                 due_at := due_at, download_grant := stg.2,
                 order_public_id := order.public_id, order_item_id := item.id,
                 sequence := sequence }],
            emails := stg.1.emails ++ ["fulfillment_order_requested"] })
      st
  else st

/-- The per-item body of `_fulfill_order`'s loop. -/
def fulfillItem (order : Order) (now : PyDateTime) (st : CommerceState)
    (item : OrderItemRow) : Except String CommerceState :=
  match entitlementsForItem order.customer_account order.public_id now item.id st
      (productFeatureKeys item.product) with
  | .error e => .error e
  | .ok st1 => .ok (serviceStep order now item (digitalStep order item st1))

/-- The item loop of `_fulfill_order`. -/
def fulfillItems (order : Order) (now : PyDateTime) (st : CommerceState) :
    List OrderItemRow → Except String CommerceState
  | [] => .ok st
  | item :: rest =>
      match fulfillItem order now st item with
      | .error e => .error e
      | .ok st1 => fulfillItems order now st1 rest

/-- The order row written at the end of `_fulfill_order`. -/
def fulfilledOrder (order : Order) (now : PyDateTime) : Order :=
  { order with status := .fulfilled,
               fulfilled_at := some (order.fulfilled_at.getD now),
               paid_at := some (order.paid_at.getD now) }

/-- `_fulfill_order` from `account.py`; `items` is
`order.items.order_by("id")`. -/
def _fulfill_order (now : PyDateTime) (st : CommerceState) (order : Order)
    (items : List OrderItemRow) : Except String (CommerceState × Order) :=
  if order.status = .fulfilled then .ok (st, order)
  else
    match fulfillItems order now st items with
    | .error e => .error e
    | .ok st1 =>
        .ok ({ st1 with emails := st1.emails ++ ["order_fulfilled"] },
          fulfilledOrder order now)

/-- The recurring-subscription loop of `confirm_order_payment`
(`enumerate(recurring_items)`): skip items whose subscription for this
order already exists; only the first recurring item of a Clerk payment
may take `external_id` as its `clerk_subscription_id`, and only when no
subscription already carries it. -/
def createSubscriptions (account : Nat) (orderPid : String)
    (provider external_id1 : String) (now : PyDateTime) :
    Nat → CommerceState → List OrderItemRow → CommerceState
  | _, st, [] => st
  | index, st, item :: rest =>
      match item.price with
      | none => createSubscriptions account orderPid provider external_id1 now
          (index + 1) st rest
      | some pr =>
          if st.subscriptions.any fun s =>
              s.customer_account == account && s.price == some pr.id &&
                s.order_public_id == orderPid && s.order_item_id == item.id then
            createSubscriptions account orderPid provider external_id1 now
              (index + 1) st rest
          else
            let sub_id :=
              if provider = "clerk" ∧ external_id1 ≠ "" ∧ index = 0 ∧
                  ¬ (st.subscriptions.any fun s =>
                    s.clerk_subscription_id == some external_id1) then
                some external_id1
              else none
            createSubscriptions account orderPid provider external_id1 now (index + 1)
              { st with subscriptions := st.subscriptions ++
                  [{ customer_account := account, product := some item.product.id,
                     price := some pr.id, status := "active",
                     clerk_subscription_id := sub_id, current_period_start := some now,
                     current_period_end := _billing_period_end now pr.billing_period,
                     order_public_id := orderPid, order_item_id := item.id,
                     quantity := item.quantity }] }
              rest

/-- The transaction row recorded by `confirm_order_payment`. -/
def confirmTransaction (orderPid : String) (provider external_id1 : String)
    (amount : Nat) (currency : String) (raw : JVal) : PaymentTransactionRow :=
  { order := some orderPid, subscription := none, provider := provider,
    external_id := external_id1, status := "succeeded", amount_cents := amount,
    currency := currency, raw_payload := raw }

/-- `raw_payload if isinstance(raw_payload, dict) else {}`. -/
def confirmRawPayload (raw_payload : JVal) : JVal :=
  match raw_payload with
  | .jdict kvs => .jdict kvs
  | _ => .jdict []

/-- The order row written by `confirm_order_payment` before fulfillment:
paid, with `paid_at` and the external references backfilled only when
previously unset. -/
def confirmPaidOrder (order : Order) (now : PyDateTime)
    (external_id1 clerk_checkout_id1 : String) : Order :=
  { order with
      status := .paid,
      paid_at := some (order.paid_at.getD now),
      clerk_checkout_id :=
        if clerk_checkout_id1 ≠ "" ∧ order.clerk_checkout_id = "" then clerk_checkout_id1
        else order.clerk_checkout_id,
      external_reference :=
        if external_id1 ≠ "" ∧ order.external_reference = "" then external_id1
        else order.external_reference }

/-- The transaction step of `confirm_order_payment`: `update_or_create`
on (provider, external_id, order) when an external id is present,
`create` otherwise. -/
def confirmStateAfterTransaction (st : CommerceState) (order : Order) (order2 : Order)
    (provider external_id : String) (raw_payload : JVal) : CommerceState :=
  let raw := confirmRawPayload raw_payload
  let external_id1 := pyStrip external_id
  if external_id1 ≠ "" then
    if st.transactions.any fun t =>
        t.provider == provider && t.external_id == external_id1 &&
          t.order == some order.public_id then
      { st with transactions := st.transactions.map fun t =>
          if t.provider == provider && t.external_id == external_id1 &&
              t.order == some order.public_id then
            { t with subscription := none, status := "succeeded",
                     amount_cents := order2.total_cents,
                     currency := order2.currency, raw_payload := raw }
          else t }
    else
      { st with transactions := st.transactions ++
          [confirmTransaction order.public_id provider external_id1
            order2.total_cents order2.currency raw] }
  else
    { st with transactions := st.transactions ++
        [confirmTransaction order.public_id provider ""
          order2.total_cents order2.currency raw] }

/-- The transaction and subscription steps of `confirm_order_payment`,
combined. -/
def confirmStateAfterSubscriptions (st : CommerceState) (order : Order) (order2 : Order)
    (items : List OrderItemRow) (provider external_id : String) (raw_payload : JVal)
    (now : PyDateTime) : CommerceState :=
  createSubscriptions order.customer_account order.public_id provider
    (pyStrip external_id) now 0
    (confirmStateAfterTransaction st order order2 provider external_id raw_payload)
    (items.filter fun item =>
      match item.price with
      | some pr => pr.billing_period == "monthly" || pr.billing_period == "yearly"
      | none => false)

/-- `confirm_order_payment` from `account.py`: reject canceled/refunded
orders, short-circuit already-confirmed orders (fulfilling a paid one),
and otherwise mark paid, record the succeeded transaction, create missing
recurring subscriptions, and fulfill. -/
def confirm_order_payment (now : PyDateTime) (st : CommerceState) (order : Order)
    (items : List OrderItemRow) (provider external_id clerk_checkout_id : String)
    (raw_payload : JVal) : Except String (CommerceState × Order × Bool) :=
  if order.status = .canceled ∨ order.status = .refunded then
    .error "Cannot confirm a canceled or refunded order."
  else if order.status = .paid ∨ order.status = .fulfilled then
    if order.status = .paid then
      match _fulfill_order now st order items with
      | .error e => .error e
      | .ok r => .ok (r.1, r.2, true)
    else .ok (st, order, true)
  else
    match Order.save (confirmPaidOrder order now (pyStrip external_id)
        (pyStrip clerk_checkout_id)) with
    | .error e => .error e
    | .ok order2 =>
        match _fulfill_order now
            (confirmStateAfterSubscriptions st order order2 items provider external_id
              raw_payload now)
            order2 items with
        | .error e => .error e
        | .ok r => .ok (r.1, r.2, false)

/-- A successfully created entitlement only appends to `entitlements`. -/
theorem createEntitlement_transactions {account : Nat} {orderRef : String}
    {now : PyDateTime} {itemId : Nat} {st : CommerceState} {f : JVal} {st1 : CommerceState}
    (h : createEntitlement account orderRef now itemId st f = .ok st1) :
    st1.transactions = st.transactions := by
  simp only [createEntitlement] at h
  split at h
  · injection h with h
    subst h
    rfl
  · split at h
    · cases h
    · injection h with h
      subst h
      rfl

/-- The entitlement loop never touches `transactions`. -/
theorem entitlementsForItem_transactions {account : Nat} {orderRef : String}
    {now : PyDateTime} {itemId : Nat} (fs : List JVal) :
    ∀ {st st1 : CommerceState},
      entitlementsForItem account orderRef now itemId st fs = .ok st1 →
      st1.transactions = st.transactions := by
  induction fs with
  | nil =>
      intro st st1 h
      rw [entitlementsForItem] at h
      injection h with h
      subst h
      rfl
  | cons f rest ih =>
      intro st st1 h
      rw [entitlementsForItem] at h
      cases hc : createEntitlement account orderRef now itemId st f with
      | error e => rw [hc] at h; cases h
      | ok st2 =>
          rw [hc] at h
          exact (ih h).trans (createEntitlement_transactions hc)

/-- A fold whose step preserves `transactions` preserves `transactions`. -/
theorem foldl_transactions {α : Type} (f : CommerceState → α → CommerceState)
    (hf : ∀ st x, (f st x).transactions = st.transactions) (l : List α) :
    ∀ st : CommerceState, (l.foldl f st).transactions = st.transactions := by
  induction l with
  | nil => intro st; rfl
  | cons x xs ih => intro st; rw [List.foldl_cons, ih, hf]

/-- The digital branch of fulfillment never touches `transactions`. -/
theorem digitalStep_transactions (order : Order) (item : OrderItemRow)
    (st : CommerceState) : (digitalStep order item st).transactions = st.transactions := by
  simp only [digitalStep]
  split
  · split
    · refine foldl_transactions _ ?_ _ _
      intro st1 o
      rfl
    · refine foldl_transactions _ ?_ _ _
      intro st1 a
      dsimp only
      split <;> rfl
  · rfl

/-- The service branch of fulfillment never touches `transactions`. -/
theorem serviceStep_transactions (order : Order) (now : PyDateTime)
    (item : OrderItemRow) (st : CommerceState) :
    (serviceStep order now item st).transactions = st.transactions := by
  simp only [serviceStep]
  split
  · refine foldl_transactions _ ?_ _ _
    intro st1 o
    dsimp only
    split <;> rfl
  · rfl

/-- One fulfillment loop iteration never touches `transactions`. -/
theorem fulfillItem_transactions {order : Order} {now : PyDateTime}
    {st : CommerceState} {item : OrderItemRow} {st1 : CommerceState}
    (h : fulfillItem order now st item = .ok st1) :
    st1.transactions = st.transactions := by
  rw [fulfillItem] at h
  cases he : entitlementsForItem order.customer_account order.public_id now item.id st
      (productFeatureKeys item.product) with
  | error e => rw [he] at h; cases h
  | ok st2 =>
      rw [he] at h
      injection h with h
      subst h
      rw [serviceStep_transactions, digitalStep_transactions,
        entitlementsForItem_transactions _ he]

/-- The item loop of `_fulfill_order` never touches `transactions`. -/
theorem fulfillItems_transactions {order : Order} {now : PyDateTime}
    (items : List OrderItemRow) :
    ∀ {st st1 : CommerceState}, fulfillItems order now st items = .ok st1 →
      st1.transactions = st.transactions := by
  induction items with
  | nil =>
      intro st st1 h
      rw [fulfillItems] at h
      injection h with h
      subst h
      rfl
  | cons item rest ih =>
      intro st st1 h
      rw [fulfillItems] at h
      cases hc : fulfillItem order now st item with
      | error e => rw [hc] at h; cases h
      | ok st2 =>
          rw [hc] at h
          exact (ih h).trans (fulfillItem_transactions hc)

/-- The subscription loop never touches `transactions`. -/
theorem createSubscriptions_transactions {account : Nat} {orderPid : String}
    {provider external_id1 : String} {now : PyDateTime} (items : List OrderItemRow) :
    ∀ (index : Nat) (st : CommerceState),
      (createSubscriptions account orderPid provider external_id1 now
        index st items).transactions = st.transactions := by
  induction items with
  | nil => intro i st; rw [createSubscriptions]
  | cons item rest ih =>
      intro i st
      rw [createSubscriptions]
      split
      · exact ih _ _
      · split
        · exact ih _ _
        · rw [ih]

/-- All feature keys of an item's product survive normalization. -/
def itemFeaturesOk (item : OrderItemRow) : Prop :=
  ∀ f ∈ productFeatureKeys item.product,
    (pyLower (pyStrip (pyStr f))).replace " " "_" ≠ ""

/-- `createEntitlement` succeeds whenever the normalized key is
non-empty. -/
theorem createEntitlement_ok (account : Nat) (orderRef : String) (now : PyDateTime)
    (itemId : Nat) (st : CommerceState) (f : JVal)
    (hf : (pyLower (pyStrip (pyStr f))).replace " " "_" ≠ "") :
    ∃ st1, createEntitlement account orderRef now itemId st f = .ok st1 := by
  simp only [createEntitlement]
  by_cases hA : (st.entitlements.any fun e =>
      e.customer_account == account && e.feature_key == pyLower (pyStrip (pyStr f)) &&
        e.source_type == "purchase" && e.source_reference == orderRef) = true
  · rw [if_pos hA]
    exact ⟨st, rfl⟩
  · rw [if_neg hA, if_neg hf]
    exact ⟨_, rfl⟩

/-- The entitlement loop succeeds whenever every normalized key is
non-empty. -/
theorem entitlementsForItem_ok (account : Nat) (orderRef : String) (now : PyDateTime)
    (itemId : Nat) (fs : List JVal)
    (hf : ∀ f ∈ fs, (pyLower (pyStrip (pyStr f))).replace " " "_" ≠ "") :
    ∀ st : CommerceState,
      ∃ st1, entitlementsForItem account orderRef now itemId st fs = .ok st1 := by
  induction fs with
  | nil =>
      intro st
      exact ⟨st, by rw [entitlementsForItem]⟩
  | cons f rest ih =>
      intro st
      obtain ⟨st2, h2⟩ := createEntitlement_ok account orderRef now itemId st f
        (hf f (List.mem_cons_self f rest))
      obtain ⟨st3, h3⟩ := ih (fun g hg => hf g (List.mem_cons_of_mem f hg)) st2
      refine ⟨st3, ?_⟩
      rw [entitlementsForItem, h2]
      exact h3

/-- One fulfillment loop iteration succeeds for an item whose feature
keys are all non-empty after normalization. -/
theorem fulfillItem_ok (order : Order) (now : PyDateTime) (st : CommerceState)
    (item : OrderItemRow) (hf : itemFeaturesOk item) :
    ∃ st1, fulfillItem order now st item = .ok st1 := by
  obtain ⟨st2, h2⟩ := entitlementsForItem_ok order.customer_account order.public_id now
    item.id (productFeatureKeys item.product) hf st
  exact ⟨_, by rw [fulfillItem, h2]⟩

/-- The item loop of `_fulfill_order` succeeds when every item's feature
keys are all non-empty after normalization. -/
theorem fulfillItems_ok (order : Order) (now : PyDateTime) (items : List OrderItemRow)
    (hf : ∀ item ∈ items, itemFeaturesOk item) :
    ∀ st : CommerceState, ∃ st1, fulfillItems order now st items = .ok st1 := by
  induction items with
  | nil =>
      intro st
      exact ⟨st, by rw [fulfillItems]⟩
  | cons item rest ih =>
      intro st
      obtain ⟨st2, h2⟩ := fulfillItem_ok order now st item
        (hf item (List.mem_cons_self item rest))
      obtain ⟨st3, h3⟩ := ih (fun i hi => hf i (List.mem_cons_of_mem item hi)) st2
      refine ⟨st3, ?_⟩
      rw [fulfillItems, h2]
      exact h3

/-- `_fulfill_order` on a not-yet-fulfilled order succeeds, returns the
fulfilled order row, and leaves `transactions` unchanged. -/
theorem _fulfill_order_ok (now : PyDateTime) (st : CommerceState) (order : Order)
    (items : List OrderItemRow) (hf : ∀ item ∈ items, itemFeaturesOk item)
    (hs : order.status ≠ .fulfilled) :
    ∃ st1, _fulfill_order now st order items = .ok (st1, fulfilledOrder order now) ∧
      st1.transactions = st.transactions := by
  obtain ⟨st2, h2⟩ := fulfillItems_ok order now items hf st
  refine ⟨{ st2 with emails := st2.emails ++ ["order_fulfilled"] }, ?_, ?_⟩
  · rw [_fulfill_order, if_neg hs, h2]
  · show st2.transactions = st.transactions
    exact fulfillItems_transactions items h2

/-- `Order.save` preserves the status, timestamps, the totals, and the
identifying columns. -/
theorem Order.save_fields {o o1 : Order} (h : Order.save o = .ok o1) :
    o1.status = o.status ∧ o1.paid_at = o.paid_at ∧ o1.fulfilled_at = o.fulfilled_at ∧
      o1.total_cents = o.total_cents ∧ o1.public_id = o.public_id := by
  simp only [Order.save, Order.clean] at h
  by_cases h1 : (pyUpper (pyStrip (if o.currency = "" then "USD" else o.currency))).length ≠ 3
  · rw [if_pos h1] at h
    cases h
  · rw [if_neg h1] at h
    by_cases h2 : o.total_cents ≠ o.subtotal_cents + o.tax_cents
    · rw [if_pos h2] at h
      cases h
    · rw [if_neg h2] at h
      injection h with h
      subst h
      exact ⟨rfl, rfl, rfl, rfl, rfl⟩

/-- The maps `transactions` through to the subscription stage. -/
theorem confirmStateAfterSubscriptions_transactions (st : CommerceState)
    (order order2 : Order) (items : List OrderItemRow)
    (provider external_id : String) (raw_payload : JVal) (now : PyDateTime) :
    (confirmStateAfterSubscriptions st order order2 items provider external_id
        raw_payload now).transactions =
      (confirmStateAfterTransaction st order order2 provider external_id
        raw_payload).transactions :=
  createSubscriptions_transactions _ _ _

/-- After the transaction stage, a succeeded transaction for the order
with the saved order's amount and currency is on file. -/
theorem confirmStateAfterTransaction_mem (st : CommerceState) (order order2 : Order)
    (provider external_id : String) (raw_payload : JVal) :
    ∃ t ∈ (confirmStateAfterTransaction st order order2 provider external_id
        raw_payload).transactions,
      t.order = some order.public_id ∧ t.provider = provider ∧ t.status = "succeeded" ∧
        t.amount_cents = order2.total_cents ∧ t.currency = order2.currency := by
  simp only [confirmStateAfterTransaction]
  split
  · split
    · rename_i hfound
      obtain ⟨t0, hmem, hp⟩ := List.any_eq_true.mp hfound
      refine ⟨_, List.mem_map_of_mem _ hmem, ?_⟩
      dsimp only
      rw [if_pos hp]
      simp only [Bool.and_eq_true, beq_iff_eq] at hp
      exact ⟨hp.2, hp.1.1, rfl, rfl, rfl⟩
    · exact ⟨confirmTransaction order.public_id provider (pyStrip external_id)
        order2.total_cents order2.currency (confirmRawPayload raw_payload),
        by simp, rfl, rfl, rfl, rfl, rfl⟩
  · exact ⟨confirmTransaction order.public_id provider ""
      order2.total_cents order2.currency (confirmRawPayload raw_payload),
      by simp, rfl, rfl, rfl, rfl, rfl⟩

/-- C3: `confirm_order_payment` raises a `ValidationError` and changes
nothing for a canceled or refunded order; an already-fulfilled order is
returned unchanged with the already-confirmed flag `True`, and an
already-paid order is fulfilled and returned with flag `True`, in both
cases without creating any `PaymentTransaction`; any other order (once
its paid row passes `Order.save`) is fulfilled with flag `False`, ends
in status `fulfilled`, gets a succeeded `PaymentTransaction` recorded
with the order's amount and currency, and keeps any `paid_at` and
`fulfilled_at` timestamps that were already set. -/
theorem c3_confirm_order_payment (now : PyDateTime) (st : CommerceState) (order : Order)
    (items : List OrderItemRow) (provider external_id clerk_checkout_id : String)
    (raw_payload : JVal)
    (hfeat : ∀ item ∈ items, itemFeaturesOk item) :
    ((order.status = .canceled ∨ order.status = .refunded) →
      confirm_order_payment now st order items provider external_id clerk_checkout_id
          raw_payload = .error "Cannot confirm a canceled or refunded order.")
    ∧ (order.status = .fulfilled →
      confirm_order_payment now st order items provider external_id clerk_checkout_id
          raw_payload = .ok (st, order, true))
    ∧ (order.status = .paid →
      ∃ st1, confirm_order_payment now st order items provider external_id
            clerk_checkout_id raw_payload = .ok (st1, fulfilledOrder order now, true) ∧
        st1.transactions = st.transactions ∧
        (fulfilledOrder order now).status = .fulfilled ∧
        (∀ ts, order.paid_at = some ts → (fulfilledOrder order now).paid_at = some ts) ∧
        (∀ ts, order.fulfilled_at = some ts →
          (fulfilledOrder order now).fulfilled_at = some ts))
    ∧ (order.status ≠ .canceled → order.status ≠ .refunded → order.status ≠ .paid →
        order.status ≠ .fulfilled →
      ∀ order2, Order.save (confirmPaidOrder order now (pyStrip external_id)
          (pyStrip clerk_checkout_id)) = .ok order2 →
        ∃ st1, confirm_order_payment now st order items provider external_id
              clerk_checkout_id raw_payload = .ok (st1, fulfilledOrder order2 now, false) ∧
          (fulfilledOrder order2 now).status = .fulfilled ∧
          (∃ t ∈ st1.transactions, t.order = some order.public_id ∧ t.provider = provider ∧
            t.status = "succeeded" ∧ t.amount_cents = order.total_cents ∧
            t.currency = order2.currency) ∧
          (∀ ts, order.paid_at = some ts → (fulfilledOrder order2 now).paid_at = some ts) ∧
          (∀ ts, order.fulfilled_at = some ts →
            (fulfilledOrder order2 now).fulfilled_at = some ts)) := by
  refine ⟨?_, ?_, ?_, ?_⟩
  · intro h
    rw [confirm_order_payment, if_pos h]
  · intro h
    rw [confirm_order_payment, if_neg (by rw [h]; decide), if_pos (Or.inr h),
      if_neg (by rw [h]; decide)]
  · intro hp
    have hs : order.status ≠ .fulfilled := by rw [hp]; decide
    obtain ⟨st1, hfo, htr⟩ := _fulfill_order_ok now st order items hfeat hs
    refine ⟨st1, ?_, htr, rfl, ?_, ?_⟩
    · rw [confirm_order_payment, if_neg (by rw [hp]; decide), if_pos (Or.inl hp),
        if_pos hp, hfo]
    · intro ts hts
      show some (order.paid_at.getD now) = some ts
      rw [hts]
      rfl
    · intro ts hts
      show some (order.fulfilled_at.getD now) = some ts
      rw [hts]
      rfl
  · intro hc1 hc2 hc3 hc4 order2 hsave
    have h2p : order2.status = OrderStatus.paid :=
      ((Order.save_fields hsave).1).trans rfl
    have h2s : order2.status ≠ .fulfilled := by rw [h2p]; decide
    obtain ⟨st1, hfo, htr⟩ := _fulfill_order_ok now
      (confirmStateAfterSubscriptions st order order2 items provider external_id
        raw_payload now) order2 items hfeat h2s
    refine ⟨st1, ?_, rfl, ?_, ?_, ?_⟩
    · rw [confirm_order_payment, if_neg (fun h => h.elim hc1 hc2),
        if_neg (fun h => h.elim hc3 hc4), hsave]
      dsimp only
      rw [hfo]
    · obtain ⟨t, htmem, hto, htp, hts2, hta, htc⟩ :=
        confirmStateAfterTransaction_mem st order order2 provider external_id raw_payload
      refine ⟨t, ?_, hto, htp, hts2, ?_, htc⟩
      · rw [htr, confirmStateAfterSubscriptions_transactions]
        exact htmem
      · rw [hta]
        exact ((Order.save_fields hsave).2.2.2.1).trans rfl
    · intro ts hts
      have hq : order2.paid_at = some (order.paid_at.getD now) :=
        ((Order.save_fields hsave).2.1).trans rfl
      show some (order2.paid_at.getD now) = some ts
      rw [hq, hts]
      rfl
    · intro ts hts
      have hq : order2.fulfilled_at = order.fulfilled_at :=
        ((Order.save_fields hsave).2.2.1).trans rfl
      show some (order2.fulfilled_at.getD now) = some ts
      rw [hq, hts]
      rfl

/-- A concrete instant for the payment-confirmation witness. -/
def c3Now : PyDateTime :=
  { year := 2024, month := 5, day := 10, hour := 12, minute := 0, second := 0,
    microsecond := 0 }

/-- A concrete pending-payment order for the payment-confirmation
witness. -/
def c3Order : Order :=
  { public_id := "ord_1", customer_account := 1, status := .pending_payment,
    currency := "usd", subtotal_cents := 500, tax_cents := 0, total_cents := 500,
    notes := "", clerk_checkout_id := "", external_reference := "",
    paid_at := none, fulfilled_at := none }

/-- The row `Order.save` stores for `c3Order` once marked paid. -/
def c3Order2 : Order :=
  { public_id := "ord_1", customer_account := 1, status := .paid,
    currency := "USD", subtotal_cents := 500, tax_cents := 0, total_cents := 500,
    notes := "", clerk_checkout_id := "", external_reference := "",
    paid_at := some c3Now, fulfilled_at := none }

/-- An empty commerce database for the payment-confirmation witness. -/
def c3State : CommerceState :=
  { entitlements := [], assets := [], download_grants := [], fulfillments := [],
    transactions := [], subscriptions := [], emails := [], fresh := 0 }

theorem c3_confirm_order_payment_witness :
    (∀ item ∈ ([] : List OrderItemRow), itemFeaturesOk item) ∧
    ∃ st1, confirm_order_payment c3Now c3State c3Order [] "stripe" "" "" (.jdict []) =
          .ok (st1, fulfilledOrder c3Order2 c3Now, false) ∧
      (fulfilledOrder c3Order2 c3Now).status = .fulfilled ∧
      (∃ t ∈ st1.transactions, t.order = some c3Order.public_id ∧ t.provider = "stripe" ∧
        t.status = "succeeded" ∧ t.amount_cents = c3Order.total_cents ∧
        t.currency = c3Order2.currency) ∧
      (∀ ts, c3Order.paid_at = some ts → (fulfilledOrder c3Order2 c3Now).paid_at = some ts) ∧
      (∀ ts, c3Order.fulfilled_at = some ts →
        (fulfilledOrder c3Order2 c3Now).fulfilled_at = some ts) := by
  refine ⟨by simp, ?_⟩
  have h := (c3_confirm_order_payment c3Now c3State c3Order [] "stripe" "" "" (.jdict [])
    (by simp)).2.2.2 (by decide) (by decide) (by decide) (by decide) c3Order2 (by rfl)
  obtain ⟨st1, h1, h2, h3, h4, h5⟩ := h
  exact ⟨st1, h1, h2, h3, h4, h5⟩
